import Mathlib

/-!
LPC15xx C_CAN driver (`can_api.c`): shallow embedding.

The driver talks to one memory-mapped controller, `LPC_C_CAN0`.  Its registers,
the file-scope variables of the driver and the message RAM behind the two
interface register sets are the fields of `State`; every driver function is a
function on `State`.  Registers are 32-bit words held as natural numbers, the
C operators `&`, `|`, `<<`, `>>` are `&&&`, `|||`, `<<<`, `>>>`, and a
clearing assignment `reg &= ~m` is the conjunction with the 32-bit complement
of `m`, written out as a literal.
-/

namespace CanApi

/-! ## Constants (`#define`s of the source) -/

abbrev RX_MSG_OBJ_COUNT : Nat := 31
abbrev TX_MSG_OBJ_COUNT : Nat := 1
abbrev DLC_MAX : Nat := 8

abbrev ID_STD_MASK : Nat := 0x07FF
abbrev ID_EXT_MASK : Nat := 0x1FFFFFFF
abbrev DLC_MASK : Nat := 0x0F

abbrev CANIFn_ARB2_DIR : Nat := 0x2000         -- 1UL << 13
abbrev CANIFn_ARB2_XTD : Nat := 0x4000         -- 1UL << 14
abbrev CANIFn_ARB2_MSGVAL : Nat := 0x8000      -- 1UL << 15
abbrev CANIFn_MSK2_MXTD : Nat := 0x8000        -- 1UL << 15
abbrev CANIFn_MSK2_MDIR : Nat := 0x4000        -- 1UL << 14
abbrev CANIFn_MCTRL_EOB : Nat := 0x80          -- 1UL << 7
abbrev CANIFn_MCTRL_TXRQST : Nat := 0x100      -- 1UL << 8
abbrev CANIFn_MCTRL_UMASK : Nat := 0x1000      -- 1UL << 12
abbrev CANIFn_CMDMSK_DATA_B : Nat := 0x1       -- 1UL << 0
abbrev CANIFn_CMDMSK_DATA_A : Nat := 0x2       -- 1UL << 1
abbrev CANIFn_CMDMSK_TXRQST : Nat := 0x4       -- 1UL << 2
abbrev CANIFn_CMDMSK_NEWDAT : Nat := 0x4       -- 1UL << 2
abbrev CANIFn_CMDMSK_CLRINTPND : Nat := 0x8    -- 1UL << 3
abbrev CANIFn_CMDMSK_CTRL : Nat := 0x10        -- 1UL << 4
abbrev CANIFn_CMDMSK_ARB : Nat := 0x20         -- 1UL << 5
abbrev CANIFn_CMDMSK_MASK : Nat := 0x40        -- 1UL << 6
abbrev CANIFn_CMDMSK_WR : Nat := 0x80          -- 1UL << 7
abbrev CANIFn_CMDMSK_RD : Nat := 0x0           -- 0UL << 7
abbrev CANIFn_CMDREQ_BUSY : Nat := 0x8000      -- 1UL << 15

abbrev CANSTAT_TXOK : Nat := 0x08              -- 1 << 3
abbrev CANSTAT_RXOK : Nat := 0x10              -- 1 << 4
abbrev CANSTAT_EPASS : Nat := 0x20             -- 1 << 5
abbrev CANSTAT_EWARN : Nat := 0x40             -- 1 << 6
abbrev CANSTAT_BOFF : Nat := 0x80              -- 1 << 7

abbrev CANCNTL_INIT : Nat := 0x01              -- 1 << 0
abbrev CANCNTL_TEST : Nat := 0x80              -- 1 << 7
abbrev CANTEST_SILENT : Nat := 0x08            -- 1 << 3
abbrev CANTEST_LBACK : Nat := 0x10             -- 1 << 4

/-! ## Types of `can_api.h` / `can_helper.h` -/

/-- Modelled from the spec: the frame format enumeration of `can_helper.h`
(the header is not part of the sources); the driver only ever compares a
format with `CANExtended`. -/
inductive CANFormat where
  | CANStandard
  | CANExtended
  | CANAny
deriving DecidableEq, Repr

/-- Modelled from the spec: the frame type enumeration of `can_helper.h`. -/
inductive CANType where
  | CANData
  | CANRemote
deriving DecidableEq, Repr

/-- Modelled from the spec: the callback event enumeration of `can_api.h`;
the driver raises `IRQ_RX`, `IRQ_TX`, `IRQ_ERROR`, `IRQ_PASSIVE`, `IRQ_BUS`. -/
inductive CanIrqType where
  | IRQ_RX
  | IRQ_TX
  | IRQ_ERROR
  | IRQ_OVERRUN
  | IRQ_WAKEUP
  | IRQ_PASSIVE
  | IRQ_ARB
  | IRQ_BUS
  | IRQ_READY
deriving DecidableEq, Repr

/-- Modelled from the spec: the result enumeration of `can_tx_status`. -/
inductive CanTxState where
  | TX_STATE_IDLE
  | TX_STATE_AVAILABLE
  | TX_STATE_BUSY
deriving DecidableEq, Repr

/-- Modelled from the spec: the frame `CAN_Message` of `can_helper.h`:
`unsigned int id`, `unsigned char data[8]`, `unsigned char len`, format and
type. -/
structure CAN_Message where
  id : Nat
  data : Fin 8 → Nat
  len : Nat
  format : CANFormat
  type : CANType

/-- One slot of the message RAM: the words an interface transfer moves. -/
structure MsgObj where
  msk1 : Nat
  msk2 : Nat
  arb1 : Nat
  arb2 : Nat
  mctrl : Nat
  da1 : Nat
  da2 : Nat
  db1 : Nat
  db2 : Nat
deriving DecidableEq, Repr

/-- Modelled from the spec: the register block `LPC_C_CAN0` of the device
header (not part of the sources), reduced to the registers the driver
touches, together with the message RAM, the file-scope variables `can_irq_id`, `rx_interrupts`, `tx_interrupts`, and the
list `calls` of the invocations of the registered `irq_handler`, oldest
first, each with the identifier and the event it was given. -/
structure State where
  CANCNTL : Nat
  CANSTAT : Nat
  CANTEST : Nat
  CANINT : Nat
  CANTXREQ1 : Nat
  CANTXREQ2 : Nat
  CANND1 : Nat
  CANND2 : Nat
  CANMSGV1 : Nat
  CANMSGV2 : Nat
  CANIF1_CMDREQ : Nat
  CANIF1_CMDMSK_W : Nat
  CANIF1_MSK1 : Nat
  CANIF1_MSK2 : Nat
  CANIF1_ARB1 : Nat
  CANIF1_ARB2 : Nat
  CANIF1_MCTRL : Nat
  CANIF1_DA1 : Nat
  CANIF1_DA2 : Nat
  CANIF1_DB1 : Nat
  CANIF1_DB2 : Nat
  CANIF2_CMDREQ : Nat
  CANIF2_CMDMSK_W : Nat
  CANIF2_MSK1 : Nat
  CANIF2_MSK2 : Nat
  CANIF2_ARB1 : Nat
  CANIF2_ARB2 : Nat
  CANIF2_MCTRL : Nat
  CANIF2_DA1 : Nat
  CANIF2_DA2 : Nat
  CANIF2_DB1 : Nat
  CANIF2_DB2 : Nat
  ram : Nat → MsgObj
  can_irq_id : Nat
  rx_interrupts : Nat
  tx_interrupts : Nat
  calls : List (Nat × CanIrqType)

/-- The all-zero message object. -/
def MsgObj.zero : MsgObj := ⟨0, 0, 0, 0, 0, 0, 0, 0, 0⟩

/-- The state with every register, every RAM word and every driver variable
zero and no callback invoked yet. -/
def State.zero : State :=
  { CANCNTL := 0, CANSTAT := 0, CANTEST := 0, CANINT := 0,
    CANTXREQ1 := 0, CANTXREQ2 := 0, CANND1 := 0, CANND2 := 0,
    CANMSGV1 := 0, CANMSGV2 := 0,
    CANIF1_CMDREQ := 0, CANIF1_CMDMSK_W := 0, CANIF1_MSK1 := 0, CANIF1_MSK2 := 0,
    CANIF1_ARB1 := 0, CANIF1_ARB2 := 0, CANIF1_MCTRL := 0,
    CANIF1_DA1 := 0, CANIF1_DA2 := 0, CANIF1_DB1 := 0, CANIF1_DB2 := 0,
    CANIF2_CMDREQ := 0, CANIF2_CMDMSK_W := 0, CANIF2_MSK1 := 0, CANIF2_MSK2 := 0,
    CANIF2_ARB1 := 0, CANIF2_ARB2 := 0, CANIF2_MCTRL := 0,
    CANIF2_DA1 := 0, CANIF2_DA2 := 0, CANIF2_DB1 := 0, CANIF2_DB2 := 0,
    ram := fun _ => MsgObj.zero,
    can_irq_id := 0, rx_interrupts := 0, tx_interrupts := 0, calls := [] }

/-! ## The message RAM behind the interface registers -/

/-- Modelled from the spec: the controller hardware behind a write to
`CANIF1_CMDREQ` (§4.2, steps 3 and 4).  The register takes the written
value and the transfer selected by `CANIF1_CMDMSK_W` runs on slot `n`: with
the write bit set, each selected group of staged words (mask, arbitration,
control, data A, data B) is stored into the slot; with it clear, each
selected group is loaded from the slot into the staging registers.  The
flag changes that go with a transfer (interrupt-pending and new-data cleared,
transmit request raised) and the bitmaps `CANMSGV`, `CANND`, `CANTXREQ` that
the hardware derives from the slots are outside the model: the bitmaps are
inputs and are not recomputed. -/
def if1_transfer (s : State) (n : Nat) : State :=
  let cm := s.CANIF1_CMDMSK_W
  let s := { s with CANIF1_CMDREQ := n }
  let o := s.ram n
  if cm &&& CANIFn_CMDMSK_WR ≠ 0 then
    let o := if cm &&& CANIFn_CMDMSK_MASK ≠ 0 then
      { o with msk1 := s.CANIF1_MSK1, msk2 := s.CANIF1_MSK2 } else o
    let o := if cm &&& CANIFn_CMDMSK_ARB ≠ 0 then
      { o with arb1 := s.CANIF1_ARB1, arb2 := s.CANIF1_ARB2 } else o
    let o := if cm &&& CANIFn_CMDMSK_CTRL ≠ 0 then
      { o with mctrl := s.CANIF1_MCTRL } else o
    let o := if cm &&& CANIFn_CMDMSK_DATA_A ≠ 0 then
      { o with da1 := s.CANIF1_DA1, da2 := s.CANIF1_DA2 } else o
    let o := if cm &&& CANIFn_CMDMSK_DATA_B ≠ 0 then
      { o with db1 := s.CANIF1_DB1, db2 := s.CANIF1_DB2 } else o
    { s with ram := Function.update s.ram n o }
  else
    let s := if cm &&& CANIFn_CMDMSK_MASK ≠ 0 then
      { s with CANIF1_MSK1 := o.msk1, CANIF1_MSK2 := o.msk2 } else s
    let s := if cm &&& CANIFn_CMDMSK_ARB ≠ 0 then
      { s with CANIF1_ARB1 := o.arb1, CANIF1_ARB2 := o.arb2 } else s
    let s := if cm &&& CANIFn_CMDMSK_CTRL ≠ 0 then
      { s with CANIF1_MCTRL := o.mctrl } else s
    let s := if cm &&& CANIFn_CMDMSK_DATA_A ≠ 0 then
      { s with CANIF1_DA1 := o.da1, CANIF1_DA2 := o.da2 } else s
    if cm &&& CANIFn_CMDMSK_DATA_B ≠ 0 then
      { s with CANIF1_DB1 := o.db1, CANIF1_DB2 := o.db2 } else s

/-- Modelled from the spec: the controller hardware behind a write to
`CANIF2_CMDREQ`; the same transfer as `if1_transfer`, on the second
interface register set. -/
def if2_transfer (s : State) (n : Nat) : State :=
  let cm := s.CANIF2_CMDMSK_W
  let s := { s with CANIF2_CMDREQ := n }
  let o := s.ram n
  if cm &&& CANIFn_CMDMSK_WR ≠ 0 then
    let o := if cm &&& CANIFn_CMDMSK_MASK ≠ 0 then
      { o with msk1 := s.CANIF2_MSK1, msk2 := s.CANIF2_MSK2 } else o
    let o := if cm &&& CANIFn_CMDMSK_ARB ≠ 0 then
      { o with arb1 := s.CANIF2_ARB1, arb2 := s.CANIF2_ARB2 } else o
    let o := if cm &&& CANIFn_CMDMSK_CTRL ≠ 0 then
      { o with mctrl := s.CANIF2_MCTRL } else o
    let o := if cm &&& CANIFn_CMDMSK_DATA_A ≠ 0 then
      { o with da1 := s.CANIF2_DA1, da2 := s.CANIF2_DA2 } else o
    let o := if cm &&& CANIFn_CMDMSK_DATA_B ≠ 0 then
      { o with db1 := s.CANIF2_DB1, db2 := s.CANIF2_DB2 } else o
    { s with ram := Function.update s.ram n o }
  else
    let s := if cm &&& CANIFn_CMDMSK_MASK ≠ 0 then
      { s with CANIF2_MSK1 := o.msk1, CANIF2_MSK2 := o.msk2 } else s
    let s := if cm &&& CANIFn_CMDMSK_ARB ≠ 0 then
      { s with CANIF2_ARB1 := o.arb1, CANIF2_ARB2 := o.arb2 } else s
    let s := if cm &&& CANIFn_CMDMSK_CTRL ≠ 0 then
      { s with CANIF2_MCTRL := o.mctrl } else s
    let s := if cm &&& CANIFn_CMDMSK_DATA_A ≠ 0 then
      { s with CANIF2_DA1 := o.da1, CANIF2_DA2 := o.da2 } else s
    if cm &&& CANIFn_CMDMSK_DATA_B ≠ 0 then
      { s with CANIF2_DB1 := o.db1, CANIF2_DB2 := o.db2 } else s

/-- Modelled from the spec: the empty loop
`while (CANIF1_CMDREQ & CANIFn_CMDREQ_BUSY);` (§4.2, steps 1 and 4).  The
loop leaves only once the hardware has dropped the busy flag; the hardware is
taken to drop it eventually, so the state after the loop is the state before
it with bit 15 of `CANIF1_CMDREQ` clear. -/
def if1_wait (s : State) : State :=
  { s with CANIF1_CMDREQ := s.CANIF1_CMDREQ &&& 0xFFFF7FFF }

/-- Modelled from the spec: the empty loop
`while (CANIF2_CMDREQ & CANIFn_CMDREQ_BUSY);`, as `if1_wait`. -/
def if2_wait (s : State) : State :=
  { s with CANIF2_CMDREQ := s.CANIF2_CMDREQ &&& 0xFFFF7FFF }

/-! ## Loops with `break` -/

/-- The loop `for (i = lo; i < lo + k; i++) if (p i) break;`: the index at
which it breaks, if it does. -/
def scanFrom (p : Nat → Bool) : Nat → Nat → Option Nat
  | _, 0 => none
  | i, k + 1 => if p i then some i else scanFrom p (i + 1) k

/-- The loop `for (i = lo; i < lo + k; i++) if (p i) count++;`. -/
def countFrom (p : Nat → Bool) : Nat → Nat → Nat
  | _, 0 => 0
  | i, k + 1 => (if p i then 1 else 0) + countFrom p (i + 1) k

/-! ## Enable, disable, mode -/

/-- Source `can_disable`: `CANCNTL |= 0x1`. -/
def can_disable (s : State) : State :=
  { s with CANCNTL := s.CANCNTL ||| 0x1 }

/-- Source `can_enable`: clears the INIT bit if it is set. -/
def can_enable (s : State) : State :=
  if s.CANCNTL &&& 0x1 ≠ 0 then
    { s with CANCNTL := s.CANCNTL &&& 0xFFFFFFFE }
  else s

/-- Source `can_clear_interrupt`: for a handle in 1..32, a read transfer on
interface 2 with the command mask `CLRINTPND | NEWDAT`. -/
def can_clear_interrupt (s : State) (handle : Int) : State :=
  if 0 < handle ∧ handle ≤ 32 then
    let s := if2_wait s
    let s := { s with CANIF2_CMDMSK_W := CANIFn_CMDMSK_CLRINTPND ||| CANIFn_CMDMSK_NEWDAT }
    let s := if2_transfer s (handle.toNat &&& 0x3F)
    if2_wait s
  else s

/-! ## Filter installation -/

/-- Source `can_filter`.  Returns the state after the call and the returned
`int`.  `1 << i` is the mask of bit `i` of the 32-bit word `msgval`. -/
def can_filter (s : State) (id mask : Nat) (format : CANFormat) (handle : Int) :
    State × Int :=
  let handle : Int :=
    if handle = 0 then
      let msgval := (s.CANMSGV1 ||| (s.CANMSGV2 <<< 16)) % 2 ^ 32
      match scanFrom (fun i => msgval &&& (1 <<< i) == 0) 0 32 with
      | some i => (i : Int) + 1
      | none => handle
    else handle
  if 0 < handle ∧ handle ≤ 32 then
    let s :=
      if format = CANFormat.CANExtended then
        { s with
          CANIF1_ARB1 := id &&& 0xFFFF,
          CANIF1_ARB2 := CANIFn_ARB2_MSGVAL ||| CANIFn_ARB2_XTD ||| ((id >>> 16) &&& 0x1FFF),
          CANIF1_MSK1 := mask &&& 0xFFFF,
          CANIF1_MSK2 := CANIFn_MSK2_MXTD ||| ((mask >>> 16) &&& 0x1FFF) }
      else
        { s with
          CANIF1_ARB2 := CANIFn_ARB2_MSGVAL ||| ((id <<< 2) &&& 0x1FFF),
          CANIF1_MSK2 := (mask <<< 2) &&& 0x1FFF }
    let s := { s with
      CANIF1_MCTRL := CANIFn_MCTRL_UMASK ||| CANIFn_MCTRL_EOB ||| (DLC_MAX &&& 0xF) }
    let s := { s with
      CANIF1_CMDMSK_W := CANIFn_CMDMSK_WR ||| CANIFn_CMDMSK_MASK ||| CANIFn_CMDMSK_ARB
        ||| CANIFn_CMDMSK_CTRL }
    let s := if1_transfer s (handle.toNat &&& 0x3F)
    let s := if1_wait s
    (s, handle)
  else (s, handle)

/-! ## Interrupt dispatch -/

/-- The call `irq_handler(can_irq_id, e)`: the registered callback is
outside the driver; its invocation is recorded in `calls`. -/
def irq_handler (s : State) (e : CanIrqType) : State :=
  { s with calls := s.calls ++ [(s.can_irq_id, e)] }

/-- Source `can_irq`. -/
def can_irq (s : State) : State :=
  let intid := s.CANINT &&& 0xFFFF
  if 0x0001 ≤ intid ∧ intid ≤ RX_MSG_OBJ_COUNT then
    let s := can_clear_interrupt s intid
    if s.rx_interrupts ≠ 0 then irq_handler s CanIrqType.IRQ_RX
    else can_clear_interrupt s intid
  else if RX_MSG_OBJ_COUNT < intid ∧ intid ≤ 0x0020 then
    let s := can_clear_interrupt s intid
    if s.tx_interrupts ≠ 0 then irq_handler s CanIrqType.IRQ_TX
    else can_clear_interrupt s intid
  else if intid = 0x8000 then
    let status := s.CANSTAT
    let s := if status &&& CANSTAT_BOFF ≠ 0 then irq_handler s CanIrqType.IRQ_BUS else s
    let s := if status &&& CANSTAT_EWARN ≠ 0 then irq_handler s CanIrqType.IRQ_ERROR else s
    let s := if status &&& CANSTAT_EPASS ≠ 0 then irq_handler s CanIrqType.IRQ_PASSIVE else s
    let s := if status &&& CANSTAT_RXOK ≠ 0 then
      irq_handler { s with CANSTAT := s.CANSTAT &&& 0xFFFFFFEF } CanIrqType.IRQ_RX else s
    let s := if status &&& CANSTAT_TXOK ≠ 0 then
      irq_handler { s with CANSTAT := s.CANSTAT &&& 0xFFFFFFF7 } CanIrqType.IRQ_TX else s
    s
  else s

/-! ## Bit timing -/

/-- Source `timing_pts`: entry `n` is the pair (TSEG1, TSEG2). -/
def timing_pts : List (Nat × Nat) :=
  [ (0x0, 0x0), (0x1, 0x0), (0x2, 0x0), (0x3, 0x0), (0x3, 0x1), (0x4, 0x1),
    (0x5, 0x1), (0x6, 0x1), (0x6, 0x2), (0x7, 0x2), (0x8, 0x2), (0x9, 0x2),
    (0x9, 0x3), (0xA, 0x3), (0xB, 0x3), (0xC, 0x3), (0xD, 0x3), (0xD, 0x4),
    (0xE, 0x4), (0xF, 0x4), (0xF, 0x5), (0xF, 0x6), (0xF, 0x7) ]

/-- The inner loop of `can_speed`,
`for (bits = 22; bits > 0; bits--) if ((bits + 3) * (brp + 1) == bitwidth) break;`
started at `bits = n`: the value of `bits` at the break, if it breaks.  The
product is at most 25 * 65536 and does not overflow. -/
def speed_bits (bitwidth brp : Nat) : Nat → Option Nat
  | 0 => none
  | b + 1 =>
    if (b + 1 + 3) * (brp + 1) = bitwidth then some (b + 1)
    else speed_bits bitwidth brp b

/-- The outer loop of `can_speed`,
`while ((!hit) && (brp < bitwidth / 4)) { brp++; ... }`, with `brp` the
16-bit counter it is in the source.  `fuel` bounds the number of iterations:
`none` is a loop still running when the fuel is spent, `some none` is the
exit without hit, `some (some (brp, bits))` the exit with hit. -/
def speed_search (bitwidth : Nat) : Nat → Nat → Option (Option (Nat × Nat))
  | 0, _ => none
  | fuel + 1, brp =>
    if brp < bitwidth / 4 then
      let brp := (brp + 1) % 65536
      match speed_bits bitwidth brp 22 with
      | some bits => some (some (brp, bits))
      | none => speed_search bitwidth fuel brp
    else some none

/-- Source `can_speed`; `sclk`, `cclk` are `unsigned int`, `psjw` is
`unsigned char`, `clkdiv` is `1 - 1`.  `none` when the search has not
finished within `fuel` iterations. -/
def can_speed (fuel sclk cclk psjw : Nat) : Option Nat :=
  let clkdiv := 1 - 1
  let bitwidth := sclk / cclk
  let brp := (bitwidth / 0x18) % 65536
  match speed_search bitwidth fuel brp with
  | none => none
  | some none => some 0
  | some (some (brp, bits)) =>
    let btr := (((timing_pts.getD bits (0, 0)).2 &&& 0x7) <<< 12)
      ||| (((timing_pts.getD bits (0, 0)).1 &&& 0xf) <<< 8)
      ||| ((psjw &&& 0x3) <<< 6)
      ||| (brp &&& 0x3F)
    some (btr ||| (clkdiv <<< 16))

/-! ## Transmission and reception -/

/-- Source `can_write`.  Returns the state after the call and the returned
`int`. -/
def can_write (s : State) (msg : CAN_Message) (_cc : Int) : State × Int :=
  let s := can_enable s
  let txPending := ((s.CANTXREQ1 &&& 0xFF) ||| (s.CANTXREQ2 <<< 16)) % 2 ^ 32
  let msgnum : Nat :=
    (scanFrom (fun i => txPending &&& (1 <<< i) == 0) RX_MSG_OBJ_COUNT
        (32 - RX_MSG_OBJ_COUNT)).elim 0 (fun i => i + 1)
  if msgnum = 0 then (s, (0 : Int))
  else
    let s := if1_wait s
    let direction : Nat := if msg.type = CANType.CANData then CANIFn_ARB2_DIR else 0
    let s :=
      if msg.format = CANFormat.CANExtended then
        { s with
          CANIF1_ARB1 := msg.id &&& 0xFFFF,
          CANIF1_ARB2 := CANIFn_ARB2_MSGVAL ||| CANIFn_ARB2_XTD ||| direction
            ||| ((msg.id >>> 16) &&& 0x1FFFF),
          CANIF1_MSK1 := ID_EXT_MASK &&& 0xFFFF,
          CANIF1_MSK2 := CANIFn_MSK2_MXTD ||| CANIFn_MSK2_MDIR
            ||| ((ID_EXT_MASK >>> 16) &&& 0x1FFF) }
      else
        { s with
          CANIF1_ARB2 := CANIFn_ARB2_MSGVAL ||| direction ||| ((msg.id <<< 2) &&& 0x1FFF),
          CANIF1_MSK2 := CANIFn_MSK2_MDIR ||| ((ID_STD_MASK <<< 2) &&& 0x1FFF) }
    let s := { s with
      CANIF1_MCTRL := CANIFn_MCTRL_UMASK ||| CANIFn_MCTRL_TXRQST ||| CANIFn_MCTRL_EOB
        ||| (msg.len &&& 0xF) }
    let s := { s with
      CANIF1_DA1 := ((msg.data 1 &&& 0xFF) <<< 8) ||| (msg.data 0 &&& 0xFF),
      CANIF1_DA2 := ((msg.data 3 &&& 0xFF) <<< 8) ||| (msg.data 2 &&& 0xFF),
      CANIF1_DB1 := ((msg.data 5 &&& 0xFF) <<< 8) ||| (msg.data 4 &&& 0xFF),
      CANIF1_DB2 := ((msg.data 7 &&& 0xFF) <<< 8) ||| (msg.data 6 &&& 0xFF) }
    let s := { s with
      CANIF1_CMDMSK_W := CANIFn_CMDMSK_WR ||| CANIFn_CMDMSK_MASK ||| CANIFn_CMDMSK_ARB
        ||| CANIFn_CMDMSK_CTRL ||| CANIFn_CMDMSK_TXRQST ||| CANIFn_CMDMSK_DATA_A
        ||| CANIFn_CMDMSK_DATA_B }
    let s := if1_transfer s (msgnum &&& 0x3F)
    let s := if1_wait s
    let s := { s with CANSTAT := s.CANSTAT &&& 0xFFFFFFF7 }
    (s, 1)

/-- The frame `can_read` decodes from the interface-2 staging registers. -/
def read_frame (s : State) : CAN_Message :=
  { format :=
      if s.CANIF2_ARB2 &&& CANIFn_ARB2_XTD ≠ 0 then CANFormat.CANExtended
      else CANFormat.CANStandard,
    id :=
      if s.CANIF2_ARB2 &&& CANIFn_ARB2_XTD ≠ 0 then
        ((s.CANIF2_ARB1 &&& 0x1FFF) <<< 16) ||| (s.CANIF2_ARB2 &&& 0x1FFF)
      else (s.CANIF2_ARB2 &&& 0x1FFF) >>> 2,
    type :=
      if s.CANIF2_ARB2 &&& CANIFn_ARB2_DIR ≠ 0 then CANType.CANRemote
      else CANType.CANData,
    len := s.CANIF2_MCTRL &&& 0xF,
    data := ![(s.CANIF2_DA1 >>> 0) &&& 0xFF, (s.CANIF2_DA1 >>> 8) &&& 0xFF,
              (s.CANIF2_DA2 >>> 0) &&& 0xFF, (s.CANIF2_DA2 >>> 8) &&& 0xFF,
              (s.CANIF2_DB1 >>> 0) &&& 0xFF, (s.CANIF2_DB1 >>> 8) &&& 0xFF,
              (s.CANIF2_DB2 >>> 0) &&& 0xFF, (s.CANIF2_DB2 >>> 8) &&& 0xFF] }

/-- Source `can_read`.  `msg` is the content of the output frame before the
call; the result is the state, the output frame and the returned `int`. -/
def can_read (s : State) (msg : CAN_Message) (handle : Int) :
    State × CAN_Message × Int :=
  let s := can_enable s
  let handle : Int :=
    if handle = 0 then
      let newdata := (s.CANND1 ||| (s.CANND2 <<< 16)) % 2 ^ 32
      match scanFrom (fun i => newdata &&& (1 <<< i) != 0) 0 RX_MSG_OBJ_COUNT with
      | some i => (i : Int) + 1
      | none => handle
    else handle
  if 0 < handle ∧ handle ≤ 32 then
    let s := if2_wait s
    let s := { s with
      CANIF2_CMDMSK_W := CANIFn_CMDMSK_RD ||| CANIFn_CMDMSK_MASK ||| CANIFn_CMDMSK_ARB
        ||| CANIFn_CMDMSK_CTRL ||| CANIFn_CMDMSK_CLRINTPND ||| CANIFn_CMDMSK_TXRQST
        ||| CANIFn_CMDMSK_DATA_A ||| CANIFn_CMDMSK_DATA_B }
    let s := if2_transfer s (handle.toNat &&& 0x3F)
    let s := if2_wait s
    let msg := read_frame s
    let s := { s with CANSTAT := s.CANSTAT &&& 0xFFFFFFEF }
    (s, msg, 1)
  else (s, msg, 0)

/-- Source `can_tx_status`. -/
def can_tx_status (s : State) : CanTxState :=
  let txPending := ((s.CANTXREQ1 &&& 0xFF) ||| (s.CANTXREQ2 <<< 16)) % 2 ^ 32
  let count : Nat :=
    if txPending ≠ 0 then
      countFrom (fun i => txPending &&& (1 <<< i) != 0) RX_MSG_OBJ_COUNT
        (32 - RX_MSG_OBJ_COUNT)
    else 0
  if count = 0 then CanTxState.TX_STATE_IDLE
  else if count = TX_MSG_OBJ_COUNT then CanTxState.TX_STATE_BUSY
  else CanTxState.TX_STATE_AVAILABLE

/-! ## Bitmaps and concrete inputs used in the statements -/

/-- Bit of slot `k` (1..32) in a 32-slot bitmap held in two 16-bit registers:
`lo` carries slots 1..16 in its bits 0..15, `hi` slots 17..32. -/
def slot_bit (lo hi k : Nat) : Bool :=
  if k ≤ 16 then lo.testBit (k - 1) else hi.testBit (k - 17)

/-- A standard-format data frame, identifier 0x123, eight payload bytes. -/
def frame_std_data : CAN_Message :=
  { id := 0x123, data := ![1, 2, 3, 4, 5, 6, 7, 8], len := 8,
    format := CANFormat.CANStandard, type := CANType.CANData }

/-- An extended-format remote frame, identifier 1, no payload. -/
def frame_ext_remote : CAN_Message :=
  { id := 1, data := ![0, 0, 0, 0, 0, 0, 0, 0], len := 0,
    format := CANFormat.CANExtended, type := CANType.CANRemote }

/-- Zero state with the transmit slot 32 pending. -/
def state_tx_pending : State := { State.zero with CANTXREQ2 := 0x8000 }

/-- Zero state in which slots 1..31 are valid and slot 32 is not. -/
def state_rx_slots_full : State :=
  { State.zero with CANMSGV1 := 0xFFFF, CANMSGV2 := 0x7FFF }

/-- Zero state with a status interrupt pending, bus-off and warning set and
the callback registered under identifier 5. -/
def state_status_irq : State :=
  { State.zero with CANINT := 0x8000, CANSTAT := 0xC0, can_irq_id := 5 }

/-- Zero state with the interrupt of message object 3 pending, receive
notifications enabled and the callback registered under identifier 5. -/
def state_msgobj_irq : State :=
  { State.zero with CANINT := 3, rx_interrupts := 1, can_irq_id := 5 }

/-- Zero state with new data in slots 3 and 20. -/
def state_new_data : State := { State.zero with CANND1 := 0x4, CANND2 := 0x8 }

/-! ## Mode control -/

/-- Modelled from the spec: the enumerator `MODE_RESET` of `CanMode` in
`can_api.h` (the header is not part of the sources); the enumerators are
numbered in the order of their declaration. -/
abbrev MODE_RESET : Int := 0

/-- Modelled from the spec: the enumerator `MODE_NORMAL` of `CanMode`. -/
abbrev MODE_NORMAL : Int := 1

/-- Modelled from the spec: the enumerator `MODE_SILENT` of `CanMode`. -/
abbrev MODE_SILENT : Int := 2

/-- Modelled from the spec: the enumerator `MODE_TEST_GLOBAL` of `CanMode`. -/
abbrev MODE_TEST_GLOBAL : Int := 3

/-- Modelled from the spec: the enumerator `MODE_TEST_LOCAL` of `CanMode`. -/
abbrev MODE_TEST_LOCAL : Int := 4

/-- Modelled from the spec: the enumerator `MODE_TEST_SILENT` of `CanMode`. -/
abbrev MODE_TEST_SILENT : Int := 5

/-- Source `can_mode`: the `switch` over `mode`, an `int`-valued enumeration,
with `MODE_TEST_GLOBAL` and `default` sharing the failing branch.  Returns the
state after the call and the returned `int`. -/
def can_mode (s : State) (mode : Int) : State × Int :=
  if mode = MODE_RESET then
    let s := { s with CANCNTL := s.CANCNTL &&& 0xFFFFFF7F }
    let s := can_disable s
    (s, 1)
  else if mode = MODE_NORMAL then
    let s := { s with CANCNTL := s.CANCNTL &&& 0xFFFFFF7F }
    let s := can_enable s
    (s, 1)
  else if mode = MODE_SILENT then
    let s := { s with CANCNTL := s.CANCNTL ||| CANCNTL_TEST }
    let s := { s with CANTEST := s.CANTEST ||| CANTEST_SILENT }
    let s := { s with CANTEST := s.CANTEST &&& 0xFFFFFFEF }
    (s, 1)
  else if mode = MODE_TEST_LOCAL then
    let s := { s with CANCNTL := s.CANCNTL ||| CANCNTL_TEST }
    let s := { s with CANTEST := s.CANTEST &&& 0xFFFFFFF7 }
    let s := { s with CANTEST := s.CANTEST ||| CANTEST_LBACK }
    (s, 1)
  else if mode = MODE_TEST_SILENT then
    let s := { s with CANCNTL := s.CANCNTL ||| CANCNTL_TEST }
    let s := { s with CANTEST := s.CANTEST ||| (CANTEST_LBACK ||| CANTEST_SILENT) }
    (s, 1)
  else (s, 0)

/-- Source `can_monitor`; `silent` is an `int`. -/
def can_monitor (s : State) (silent : Int) : State :=
  let s :=
    if silent ≠ 0 then
      let s := { s with CANCNTL := s.CANCNTL ||| 0x80 }
      { s with CANTEST := s.CANTEST ||| 0x8 }
    else
      let s := { s with CANCNTL := s.CANCNTL &&& 0xFFFFFF7F }
      { s with CANTEST := s.CANTEST &&& 0xFFFFFFF7 }
  if s.CANCNTL &&& 0x1 = 0 then
    { s with CANCNTL := s.CANCNTL ||| 0x1 }
  else s

/-- The register encoding of the modes as the specification words it:
DISABLED/RESET is INIT set; NORMAL is INIT clear and TEST clear; SILENT is
INIT clear, TEST set, SILENT set, LBACK clear; LOOPBACK-TEST is INIT clear,
TEST set, SILENT clear, LBACK set; SILENT-LOOPBACK-TEST is INIT clear, TEST
set, SILENT and LBACK set.  INIT is bit 0 and TEST bit 7 of `CANCNTL`, SILENT
bit 3 and LBACK bit 4 of `CANTEST`. -/
def spec_mode_encoded (cntl test : Nat) (m : Int) : Bool :=
  if m = MODE_RESET then cntl.testBit 0
  else if m = MODE_NORMAL then !cntl.testBit 0 && !cntl.testBit 7
  else if m = MODE_SILENT then
    !cntl.testBit 0 && cntl.testBit 7 && test.testBit 3 && !test.testBit 4
  else if m = MODE_TEST_LOCAL then
    !cntl.testBit 0 && cntl.testBit 7 && !test.testBit 3 && test.testBit 4
  else if m = MODE_TEST_SILENT then
    !cntl.testBit 0 && cntl.testBit 7 && test.testBit 3 && test.testBit 4
  else false

/-! ## Sample point of a timing table entry -/

/-- Distance from 75% of the sample point of segment values `(a, n - a)`
measured from the start of the bit, as the specification has it: one sync
quantum and `a + 1` quanta of segment 1, out of `n + 3` quanta. -/
def spec_sample_dist (a n : Nat) : ℚ :=
  |((a : ℚ) + 2) / ((n : ℚ) + 3) - 3 / 4|

/-- Distance from 75% of the sample point of segment values `(a, n - a)` as
the comments of `timing_pts` count it (entry 0 is "2, 50%", entry 2 is
"4, 75%"): `a + 1` quanta of segment 1 out of the `n + 2` quanta of the two
segments, the sync quantum left out. -/
def table_sample_dist (a n : Nat) : ℚ :=
  |((a : ℚ) + 1) / ((n : ℚ) + 2) - 3 / 4|

/-! ## Further concrete inputs -/

/-- An extended-format data frame with a 29-bit identifier. -/
def frame_ext_data : CAN_Message :=
  { id := 0x12345678, data := ![1, 2, 3, 4, 5, 6, 7, 8], len := 8,
    format := CANFormat.CANExtended, type := CANType.CANData }

/-- An extended-format remote frame whose identifier has bit 29 set. -/
def frame_ext_wide : CAN_Message :=
  { id := 0x20000000, data := ![0, 0, 0, 0, 0, 0, 0, 0], len := 0,
    format := CANFormat.CANExtended, type := CANType.CANRemote }

/-- A standard-format remote frame, identifier 0x7FF, eight payload bytes. -/
def frame_std_remote : CAN_Message :=
  { id := 0x7FF, data := ![0xFF, 0, 0x80, 1, 2, 3, 0xA5, 0x5A], len := 3,
    format := CANFormat.CANStandard, type := CANType.CANRemote }

/-- Zero state with the controller in initialization mode (INIT set). -/
def state_init : State := { State.zero with CANCNTL := 0x1 }

/-! ## Bit-level facts -/

theorem and_bit_eq_zero (x i : Nat) : (x &&& (1 <<< i) = 0) ↔ x.testBit i = false := by
  rw [Nat.one_shiftLeft, Nat.and_two_pow]
  cases h : x.testBit i <;> simp

theorem and_pow_ne_zero (x i : Nat) : (x &&& 2 ^ i ≠ 0) ↔ x.testBit i = true := by
  rw [Nat.and_two_pow]
  cases h : x.testBit i <;> simp

theorem and_bit (x i : Nat) : x &&& 2 ^ i = (x / 2 ^ i % 2) * 2 ^ i := by
  rw [Nat.and_two_pow, Nat.testBit_to_div_mod]
  rcases Nat.mod_two_eq_zero_or_one (x / 2 ^ i) with h | h <;> simp [h]

theorem or_eq_add (q b k : Nat) (hb : b < 2 ^ k) : (2 ^ k * q) ||| b = 2 ^ k * q + b :=
  (Nat.mul_add_lt_is_or hb q).symm

theorem or_ne_zero_left {x : Nat} (y : Nat) (hx : x ≠ 0) : x ||| y ≠ 0 := by
  obtain ⟨i, hi⟩ := Nat.ne_zero_implies_bit_true hx
  intro h0
  have h := Nat.testBit_or x y i
  rw [h0, hi] at h
  simp at h

theorem or_ne_zero_right (x : Nat) {y : Nat} (hy : y ≠ 0) : x ||| y ≠ 0 := by
  rw [Nat.or_comm]; exact or_ne_zero_left x hy

theorem and_mask13 (x : Nat) : x &&& 0x1FFF = x % 0x2000 :=
  Nat.and_pow_two_sub_one_eq_mod x 13

theorem and_mask17 (x : Nat) : x &&& 0x1FFFF = x % 0x20000 :=
  Nat.and_pow_two_sub_one_eq_mod x 17

theorem and_mask8 (x : Nat) : x &&& 0xFF = x % 0x100 :=
  Nat.and_pow_two_sub_one_eq_mod x 8

theorem and_mask4 (x : Nat) : x &&& 0xF = x % 0x10 :=
  Nat.and_pow_two_sub_one_eq_mod x 4

theorem and_msgnum (n : Nat) (h : n ≤ 32) : n &&& 0x3F = n := by
  interval_cases n <;> rfl

theorem and_not_busy (n : Nat) (h : n ≤ 32) : n &&& 0xFFFF7FFF = n := by
  interval_cases n <;> rfl

/-- Bit `i` of the 32-bit word `a | (b << 16)`. -/
theorem testBit_word32 (a b i : Nat) (hi : i < 32) :
    ((a ||| (b <<< 16)) % 2 ^ 32).testBit i
      = (a.testBit i || (decide (16 ≤ i) && b.testBit (i - 16))) := by
  rw [Nat.testBit_mod_two_pow, Nat.testBit_or, Nat.testBit_shiftLeft]
  simp [hi]

/-- Bit 31 of `txPending` is bit 15 of `CANTXREQ2`. -/
theorem txPending_bit31 (a b : Nat) :
    (((a &&& 0xFF) ||| (b <<< 16)) % 2 ^ 32).testBit 31 = b.testBit 15 := by
  have h : Nat.testBit 255 31 = false := by decide
  rw [testBit_word32 _ _ _ (by decide), Nat.testBit_and, h]
  simp

/-- Bits of the 32-bit complement of a single bit. -/
theorem testBit_clear_mask (m k : Nat) (hk : k < 32) (hm : m = 2 ^ 32 - 1 - 2 ^ k) (i : Nat) :
    m.testBit i = (decide (i < 32) && decide (i ≠ k)) := by
  subst hm
  by_cases hi : i < 32
  · interval_cases k <;> interval_cases i <;> rfl
  · have h1 : 2 ^ 32 - 1 - 2 ^ k < 2 ^ 32 := by
      have : 0 < 2 ^ k := Nat.two_pow_pos k
      omega
    have : 2 ^ 32 - 1 - 2 ^ k < 2 ^ i :=
      lt_of_lt_of_le h1 (Nat.pow_le_pow_right (by decide) (not_lt.mp hi))
    rw [Nat.testBit_lt_two_pow this]
    simp [hi]

/-- Bit `i` of a 32-slot bitmap word, read as the bit of slot `i + 1`. -/
theorem bitmap_bit (lo hi i : Nat) (hlo : lo < 2 ^ 16) (hi31 : i < 32) :
    (((lo ||| (hi <<< 16)) % 2 ^ 32) &&& (1 <<< i) != 0) = slot_bit lo hi (i + 1) := by
  have h := and_bit_eq_zero ((lo ||| (hi <<< 16)) % 2 ^ 32) i
  rw [testBit_word32 _ _ _ hi31] at h
  unfold slot_bit
  by_cases h16 : i + 1 ≤ 16
  · have e : decide (16 ≤ i) = false := by simp; omega
    rw [e] at h
    simp only [Bool.false_and, Bool.or_false] at h
    rw [if_pos h16, Nat.add_sub_cancel]
    cases hb : lo.testBit i <;> simp_all
  · have e : decide (16 ≤ i) = true := by simp; omega
    have hz : lo.testBit i = false :=
      Nat.testBit_lt_two_pow (lt_of_lt_of_le hlo (Nat.pow_le_pow_right (by decide) (by omega)))
    rw [e, hz] at h
    simp only [Bool.true_and, Bool.false_or] at h
    rw [if_neg h16]
    have e2 : i + 1 - 17 = i - 16 := by omega
    rw [e2]
    cases hb : hi.testBit (i - 16) <;> simp_all

/-- Standard-format arbitration word: what `can_read` decodes from what
`can_write` packs. -/
theorem std_arb2 (id d : Nat) (hid : id ≤ 0x7FF) (hd : d = 0x2000 ∨ d = 0) :
    (0x8000 ||| d ||| ((id <<< 2) &&& 0x1FFF)) &&& 0x4000 = 0 ∧
    ((0x8000 ||| d ||| ((id <<< 2) &&& 0x1FFF)) &&& 0x1FFF) >>> 2 = id ∧
    ((0x8000 ||| d ||| ((id <<< 2) &&& 0x1FFF)) &&& 0x2000 ≠ 0 ↔ d = 0x2000) := by
  have e1 : (id <<< 2) &&& 0x1FFF = 4 * id := by
    rw [and_mask13, Nat.shiftLeft_eq]; omega
  have e2 : 0x8000 ||| d ||| (4 * id) = 0x8000 + d + 4 * id := by
    rcases hd with rfl | rfl
    · exact or_eq_add 5 (4 * id) 13 (by omega)
    · exact or_eq_add 4 (4 * id) 13 (by omega)
  have b14 : (0x8000 + d + 4 * id) &&& 0x4000
      = (0x8000 + d + 4 * id) / 0x4000 % 2 * 0x4000 := and_bit _ 14
  have b13 : (0x8000 + d + 4 * id) &&& 0x2000
      = (0x8000 + d + 4 * id) / 0x2000 % 2 * 0x2000 := and_bit _ 13
  rw [e1, e2, and_mask13, Nat.shiftRight_eq_div_pow]
  refine ⟨?_, ?_, ?_⟩
  · rw [b14]; rcases hd with rfl | rfl <;> omega
  · rcases hd with rfl | rfl <;> omega
  · rw [b13]; rcases hd with rfl | rfl <;> omega

/-- Extended-format arbitration word of `can_write` for a 29-bit identifier:
the extended bit is set and the direction bit is the one packed. -/
theorem ext_arb2 (id d : Nat) (hid : id ≤ 0x1FFFFFFF) (hd : d = 0x2000 ∨ d = 0) :
    (0x8000 ||| 0x4000 ||| d ||| ((id >>> 16) &&& 0x1FFFF)) &&& 0x4000 ≠ 0 ∧
    ((0x8000 ||| 0x4000 ||| d ||| ((id >>> 16) &&& 0x1FFFF)) &&& 0x2000 ≠ 0 ↔ d = 0x2000) := by
  have e1 : (id >>> 16) &&& 0x1FFFF = id / 65536 := by
    rw [and_mask17, Nat.shiftRight_eq_div_pow]; omega
  have e2 : 0x8000 ||| 0x4000 ||| d ||| (id / 65536) = 0xC000 + d + id / 65536 := by
    rcases hd with rfl | rfl
    · exact or_eq_add 7 (id / 65536) 13 (by omega)
    · exact or_eq_add 6 (id / 65536) 13 (by omega)
  have b14 : (0xC000 + d + id / 65536) &&& 0x4000
      = (0xC000 + d + id / 65536) / 0x4000 % 2 * 0x4000 := and_bit _ 14
  have b13 : (0xC000 + d + id / 65536) &&& 0x2000
      = (0xC000 + d + id / 65536) / 0x2000 % 2 * 0x2000 := and_bit _ 13
  rw [e1, e2]
  refine ⟨?_, ?_⟩
  · rw [b14]; rcases hd with rfl | rfl <;> omega
  · rw [b13]; rcases hd with rfl | rfl <;> omega

/-- Low byte of a packed data register. -/
theorem pack_lo (a b : Nat) (ha : a < 256) :
    ((((b &&& 0xFF) <<< 8) ||| (a &&& 0xFF)) >>> 0) &&& 0xFF = a := by
  have e : ((b &&& 0xFF) <<< 8) ||| (a &&& 0xFF) = 2 ^ 8 * (b % 256) + a % 256 := by
    rw [and_mask8, and_mask8, Nat.shiftLeft_eq, Nat.mul_comm]
    exact or_eq_add (b % 256) (a % 256) 8 (by omega)
  rw [e, and_mask8, Nat.shiftRight_eq_div_pow]; omega

/-- High byte of a packed data register. -/
theorem pack_hi (a b : Nat) (hb : b < 256) :
    ((((b &&& 0xFF) <<< 8) ||| (a &&& 0xFF)) >>> 8) &&& 0xFF = b := by
  have e : ((b &&& 0xFF) <<< 8) ||| (a &&& 0xFF) = 2 ^ 8 * (b % 256) + a % 256 := by
    rw [and_mask8, and_mask8, Nat.shiftLeft_eq, Nat.mul_comm]
    exact or_eq_add (b % 256) (a % 256) 8 (by omega)
  rw [e, and_mask8, Nat.shiftRight_eq_div_pow]; omega

/-- The length field survives the control word. -/
theorem mctrl_len (len : Nat) (h : len ≤ 8) :
    (0x1000 ||| 0x100 ||| 0x80 ||| (len &&& 0xF)) &&& 0xF = len := by
  have e : 0x1000 ||| 0x100 ||| 0x80 ||| (len &&& 0xF) = 2 ^ 4 * 0x118 + len % 16 := by
    rw [and_mask4]
    exact or_eq_add 0x118 (len % 16) 4 (by omega)
  rw [e, and_mask4]; omega

/-! ## Loops -/

theorem scanFrom_some {p : Nat → Bool} : ∀ {k i j : Nat}, scanFrom p i k = some j →
    i ≤ j ∧ j < i + k ∧ p j = true ∧ ∀ m, i ≤ m → m < j → p m = false
  | 0, i, j, h => by simp [scanFrom] at h
  | k + 1, i, j, h => by
    unfold scanFrom at h
    by_cases hp : p i = true
    · rw [if_pos hp] at h
      cases h
      exact ⟨le_refl _, by omega, hp, fun m h1 h2 => by omega⟩
    · rw [if_neg hp] at h
      obtain ⟨g1, g2, g3, g4⟩ := scanFrom_some h
      refine ⟨by omega, by omega, g3, fun m h1 h2 => ?_⟩
      rcases Nat.eq_or_lt_of_le h1 with rfl | hlt
      · simpa using hp
      · exact g4 m hlt h2

theorem scanFrom_none {p : Nat → Bool} : ∀ {k i : Nat}, scanFrom p i k = none →
    ∀ m, i ≤ m → m < i + k → p m = false
  | 0, i, _, m, h1, h2 => by omega
  | k + 1, i, h, m, h1, h2 => by
    unfold scanFrom at h
    by_cases hp : p i = true
    · rw [if_pos hp] at h; cases h
    · rw [if_neg hp] at h
      rcases Nat.eq_or_lt_of_le h1 with rfl | hlt
      · simpa using hp
      · exact scanFrom_none h m hlt (by omega)

/-- The scan stops at the lowest index that passes the test. -/
theorem scanFrom_lowest {p : Nat → Bool} {i k j : Nat} (h1 : i ≤ j) (h2 : j < i + k)
    (hp : p j = true) (hlow : ∀ m, i ≤ m → m < j → p m = false) :
    scanFrom p i k = some j := by
  cases hs : scanFrom p i k with
  | none =>
    have := scanFrom_none hs j h1 h2
    rw [hp] at this; cases this
  | some j' =>
    obtain ⟨g1, g2, g3, g4⟩ := scanFrom_some hs
    rcases Nat.lt_trichotomy j' j with hlt | heq | hgt
    · have := hlow j' g1 hlt
      rw [g3] at this; cases this
    · rw [heq]
    · have := g4 j h1 hgt
      rw [hp] at this; cases this

theorem scanFrom_all_false {p : Nat → Bool} {i k : Nat}
    (h : ∀ m, i ≤ m → m < i + k → p m = false) : scanFrom p i k = none := by
  cases hs : scanFrom p i k with
  | none => rfl
  | some j =>
    obtain ⟨g1, g2, g3, _⟩ := scanFrom_some hs
    have := h j g1 g2
    rw [g3] at this; cases this

/-- The transmit scan of `can_write` looks at slot 32 only. -/
theorem tx_scan (w : Nat) :
    (scanFrom (fun i => w &&& (1 <<< i) == 0) RX_MSG_OBJ_COUNT (32 - RX_MSG_OBJ_COUNT)).elim 0
      (fun i => i + 1) = if w.testBit 31 then 0 else 32 := by
  have h : scanFrom (fun i => w &&& (1 <<< i) == 0) RX_MSG_OBJ_COUNT (32 - RX_MSG_OBJ_COUNT)
      = if (w &&& (1 <<< 31) == 0) = true then some 31 else none := rfl
  rw [h]
  have := and_bit_eq_zero w 31
  cases hb : w.testBit 31 <;> simp_all

/-- The count of `can_tx_status` looks at slot 32 only. -/
theorem tx_count (w : Nat) :
    countFrom (fun i => w &&& (1 <<< i) != 0) RX_MSG_OBJ_COUNT (32 - RX_MSG_OBJ_COUNT)
      = if w.testBit 31 then 1 else 0 := by
  have h : countFrom (fun i => w &&& (1 <<< i) != 0) RX_MSG_OBJ_COUNT (32 - RX_MSG_OBJ_COUNT)
      = (if (w &&& (1 <<< 31) != 0) = true then 1 else 0) + 0 := rfl
  rw [h]
  have := and_bit_eq_zero w 31
  cases hb : w.testBit 31 <;> simp_all

/-! ## Closed forms of the driver functions -/

theorem can_enable_eq (s : State) : can_enable s = { s with CANCNTL :=
    if s.CANCNTL &&& 0x1 ≠ 0 then s.CANCNTL &&& 0xFFFFFFFE else s.CANCNTL } := by
  unfold can_enable; split <;> rfl

theorem can_clear_interrupt_eq (s : State) (n : Nat) (h1 : 1 ≤ n) (h2 : n ≤ 32) :
    can_clear_interrupt s (n : Int) =
      { s with CANIF2_CMDMSK_W := CANIFn_CMDMSK_CLRINTPND ||| CANIFn_CMDMSK_NEWDAT,
               CANIF2_CMDREQ := n } := by
  have hc : (0 : Int) < (n : Int) ∧ (n : Int) ≤ 32 := by omega
  unfold can_clear_interrupt
  rw [if_pos hc]
  simp only [Int.toNat_ofNat, and_msgnum n h2]
  simp +decide [if2_wait, if2_transfer, CANIFn_CMDMSK_CLRINTPND, CANIFn_CMDMSK_NEWDAT,
    CANIFn_CMDMSK_WR, CANIFn_CMDMSK_MASK, CANIFn_CMDMSK_ARB, CANIFn_CMDMSK_CTRL,
    CANIFn_CMDMSK_DATA_A, CANIFn_CMDMSK_DATA_B, and_not_busy n h2]

/-- The slot written by a `can_write` in a format other than extended that
finds slot 32 free. -/
theorem can_write_std_slot (s : State) (msg : CAN_Message) (cc : Int)
    (hp : s.CANTXREQ2.testBit 15 = false) (hf : msg.format ≠ CANFormat.CANExtended) :
    (can_write s msg cc).2 = 1 ∧
    (can_write s msg cc).1.ram 32 =
      { msk1 := s.CANIF1_MSK1,
        msk2 := CANIFn_MSK2_MDIR ||| ((ID_STD_MASK <<< 2) &&& 0x1FFF),
        arb1 := s.CANIF1_ARB1,
        arb2 := CANIFn_ARB2_MSGVAL ||| (if msg.type = CANType.CANData then CANIFn_ARB2_DIR else 0)
          ||| ((msg.id <<< 2) &&& 0x1FFF),
        mctrl := CANIFn_MCTRL_UMASK ||| CANIFn_MCTRL_TXRQST ||| CANIFn_MCTRL_EOB
          ||| (msg.len &&& 0xF),
        da1 := ((msg.data 1 &&& 0xFF) <<< 8) ||| (msg.data 0 &&& 0xFF),
        da2 := ((msg.data 3 &&& 0xFF) <<< 8) ||| (msg.data 2 &&& 0xFF),
        db1 := ((msg.data 5 &&& 0xFF) <<< 8) ||| (msg.data 4 &&& 0xFF),
        db2 := ((msg.data 7 &&& 0xFF) <<< 8) ||| (msg.data 6 &&& 0xFF) } := by
  have h3F : (32 &&& 63 : Nat) = 32 := by decide
  unfold can_write
  simp only [tx_scan, can_enable_eq, txPending_bit31, hp]
  simp +decide [if1_transfer, if1_wait, hf, h3F, CANIFn_CMDMSK_WR, CANIFn_CMDMSK_MASK,
    CANIFn_CMDMSK_ARB, CANIFn_CMDMSK_CTRL, CANIFn_CMDMSK_TXRQST, CANIFn_CMDMSK_DATA_A,
    CANIFn_CMDMSK_DATA_B]

/-- The slot written by an extended-format `can_write` that finds slot 32
free. -/
theorem can_write_ext_slot (s : State) (msg : CAN_Message) (cc : Int)
    (hp : s.CANTXREQ2.testBit 15 = false) (hf : msg.format = CANFormat.CANExtended) :
    (can_write s msg cc).2 = 1 ∧
    (can_write s msg cc).1.ram 32 =
      { msk1 := ID_EXT_MASK &&& 0xFFFF,
        msk2 := CANIFn_MSK2_MXTD ||| CANIFn_MSK2_MDIR ||| ((ID_EXT_MASK >>> 16) &&& 0x1FFF),
        arb1 := msg.id &&& 0xFFFF,
        arb2 := CANIFn_ARB2_MSGVAL ||| CANIFn_ARB2_XTD
          ||| (if msg.type = CANType.CANData then CANIFn_ARB2_DIR else 0)
          ||| ((msg.id >>> 16) &&& 0x1FFFF),
        mctrl := CANIFn_MCTRL_UMASK ||| CANIFn_MCTRL_TXRQST ||| CANIFn_MCTRL_EOB
          ||| (msg.len &&& 0xF),
        da1 := ((msg.data 1 &&& 0xFF) <<< 8) ||| (msg.data 0 &&& 0xFF),
        da2 := ((msg.data 3 &&& 0xFF) <<< 8) ||| (msg.data 2 &&& 0xFF),
        db1 := ((msg.data 5 &&& 0xFF) <<< 8) ||| (msg.data 4 &&& 0xFF),
        db2 := ((msg.data 7 &&& 0xFF) <<< 8) ||| (msg.data 6 &&& 0xFF) } := by
  have h3F : (32 &&& 63 : Nat) = 32 := by decide
  unfold can_write
  simp only [tx_scan, can_enable_eq, txPending_bit31, hp]
  simp +decide [if1_transfer, if1_wait, hf, h3F, CANIFn_CMDMSK_WR, CANIFn_CMDMSK_MASK,
    CANIFn_CMDMSK_ARB, CANIFn_CMDMSK_CTRL, CANIFn_CMDMSK_TXRQST, CANIFn_CMDMSK_DATA_A,
    CANIFn_CMDMSK_DATA_B]

/-- The result of `can_read` for an explicit handle in 1..32: the transfer is
started for that slot and the frame is the decode of the words of the slot. -/
theorem can_read_slot (s : State) (m0 : CAN_Message) (n : Nat) (h1 : 1 ≤ n) (h2 : n ≤ 32) :
    (can_read s m0 (n : Int)).2.2 = 1 ∧
    (can_read s m0 (n : Int)).1.CANIF2_CMDREQ = n ∧
    (can_read s m0 (n : Int)).2.1 =
      { format := if (s.ram n).arb2 &&& CANIFn_ARB2_XTD ≠ 0 then CANFormat.CANExtended
          else CANFormat.CANStandard,
        id := if (s.ram n).arb2 &&& CANIFn_ARB2_XTD ≠ 0 then
            (((s.ram n).arb1 &&& 0x1FFF) <<< 16) ||| ((s.ram n).arb2 &&& 0x1FFF)
          else ((s.ram n).arb2 &&& 0x1FFF) >>> 2,
        type := if (s.ram n).arb2 &&& CANIFn_ARB2_DIR ≠ 0 then CANType.CANRemote
          else CANType.CANData,
        len := (s.ram n).mctrl &&& 0xF,
        data := ![((s.ram n).da1 >>> 0) &&& 0xFF, ((s.ram n).da1 >>> 8) &&& 0xFF,
                  ((s.ram n).da2 >>> 0) &&& 0xFF, ((s.ram n).da2 >>> 8) &&& 0xFF,
                  ((s.ram n).db1 >>> 0) &&& 0xFF, ((s.ram n).db1 >>> 8) &&& 0xFF,
                  ((s.ram n).db2 >>> 0) &&& 0xFF, ((s.ram n).db2 >>> 8) &&& 0xFF] } := by
  have hc : (0 : Int) < (n : Int) ∧ (n : Int) ≤ 32 := by omega
  have hn0 : ¬ ((n : Int) = 0) := by omega
  unfold can_read
  simp only [if_neg hn0, if_pos hc, Int.toNat_ofNat, and_msgnum n h2, can_enable_eq]
  simp +decide [if2_transfer, if2_wait, read_frame, and_not_busy n h2, CANIFn_CMDMSK_WR,
    CANIFn_CMDMSK_MASK, CANIFn_CMDMSK_ARB, CANIFn_CMDMSK_CTRL, CANIFn_CMDMSK_TXRQST,
    CANIFn_CMDMSK_DATA_A, CANIFn_CMDMSK_DATA_B, CANIFn_CMDMSK_RD, CANIFn_CMDMSK_CLRINTPND]

/-! ## The prescaler search -/

theorem speed_bits_some {bw brp : Nat} : ∀ {n b : Nat}, speed_bits bw brp n = some b →
    1 ≤ b ∧ b ≤ n ∧ (b + 3) * (brp + 1) = bw
  | 0, b, h => by simp [speed_bits] at h
  | n + 1, b, h => by
    unfold speed_bits at h
    split at h
    · cases h
      exact ⟨by omega, le_refl _, by assumption⟩
    · obtain ⟨h1, h2, h3⟩ := speed_bits_some h
      exact ⟨h1, by omega, h3⟩

theorem speed_bits_none {bw brp : Nat} : ∀ {n : Nat}, speed_bits bw brp n = none →
    ∀ b, 1 ≤ b → b ≤ n → (b + 3) * (brp + 1) ≠ bw
  | 0, _, b, h1, h2 => by omega
  | n + 1, h, b, h1, h2 => by
    unfold speed_bits at h
    split at h
    · cases h
    · rcases Nat.eq_or_lt_of_le h2 with rfl | hlt
      · assumption
      · exact speed_bits_none h b h1 (by omega)

/-- The result of the prescaler search when the 16-bit counter cannot wrap:
it ends within `bw / 4 - brp + 1` iterations, without hit only if no
prescaler above `brp` up to `bw / 4` divides the bit width into 4..25
quanta, and with hit at the first such prescaler. -/
theorem speed_search_spec (bw : Nat) (hbw : bw / 4 < 65536) :
    ∀ fuel brp, bw / 4 - brp < fuel →
      ∃ r, speed_search bw fuel brp = some r ∧
        match r with
        | none => ∀ p b, brp < p → p ≤ bw / 4 → 1 ≤ b → b ≤ 22 → (b + 3) * (p + 1) ≠ bw
        | some (p, b) => brp < p ∧ p ≤ bw / 4 ∧ 1 ≤ b ∧ b ≤ 22 ∧ (b + 3) * (p + 1) = bw ∧
            ∀ q c, brp < q → q < p → 1 ≤ c → c ≤ 22 → (c + 3) * (q + 1) ≠ bw := by
  intro fuel
  induction fuel with
  | zero => intro brp h; omega
  | succ fuel ih =>
    intro brp h
    unfold speed_search
    by_cases hlt : brp < bw / 4
    · rw [if_pos hlt]
      have hm : (brp + 1) % 65536 = brp + 1 := Nat.mod_eq_of_lt (by omega)
      simp only [hm]
      cases hs : speed_bits bw (brp + 1) 22 with
      | some b =>
        obtain ⟨h1, h2, h3⟩ := speed_bits_some hs
        exact ⟨some (brp + 1, b), rfl, by omega, by omega, h1, h2, h3,
          fun q c hq hq' _ _ => by omega⟩
      | none =>
        have hn := speed_bits_none hs
        obtain ⟨r, hr, hspec⟩ := ih (brp + 1) (by omega)
        refine ⟨r, hr, ?_⟩
        cases r with
        | none =>
          intro p b hp hp' hb hb'
          rcases Nat.eq_or_lt_of_le (Nat.succ_le_of_lt hp) with heq | hgt
          · rw [← heq]; exact hn b hb hb'
          · exact hspec p b hgt hp' hb hb'
        | some pb =>
          obtain ⟨p, b⟩ := pb
          obtain ⟨g1, g2, g3, g4, g5, g6⟩ := hspec
          refine ⟨by omega, g2, g3, g4, g5, ?_⟩
          intro q c hq hq' hc hc'
          rcases Nat.eq_or_lt_of_le (Nat.succ_le_of_lt hq) with heq | hgt
          · rw [← heq]; exact hn c hc hc'
          · exact g6 q c hgt hq' hc hc'
    · rw [if_neg hlt]
      exact ⟨none, rfl, fun p b hp hp' _ _ => by omega⟩

/-- More fuel does not change a finished search. -/
theorem speed_search_mono (bw : Nat) :
    ∀ fuel brp r, speed_search bw fuel brp = some r →
      ∀ fuel', fuel ≤ fuel' → speed_search bw fuel' brp = some r := by
  intro fuel
  induction fuel with
  | zero => intro brp r h; simp [speed_search] at h
  | succ fuel ih =>
    intro brp r h fuel' hle
    obtain ⟨k, rfl⟩ : ∃ k, fuel' = k + 1 := ⟨fuel' - 1, by omega⟩
    unfold speed_search at h ⊢
    by_cases hlt : brp < bw / 4
    · rw [if_pos hlt] at h ⊢
      cases hs : speed_bits bw ((brp + 1) % 65536) 22 with
      | some b => simp only [hs] at h ⊢; exact h
      | none =>
        simp only [hs] at h ⊢
        exact ih _ _ h k (by omega)
    · rw [if_neg hlt] at h ⊢
      exact h

/-- Above 25 * 65536 quanta per bit no 16-bit prescaler can hit and the loop
condition never fails: the search is still running after any number of
iterations. -/
theorem speed_search_diverges (bw : Nat) (h : 25 * 65536 < bw) :
    ∀ fuel brp, brp < 65536 → speed_search bw fuel brp = none := by
  intro fuel
  induction fuel with
  | zero => intro brp _; rfl
  | succ fuel ih =>
    intro brp hb
    unfold speed_search
    rw [if_pos (by omega)]
    have hlt : (brp + 1) % 65536 < 65536 := Nat.mod_lt _ (by decide)
    cases hs : speed_bits bw ((brp + 1) % 65536) 22 with
    | some b =>
      obtain ⟨g1, g2, g3⟩ := speed_bits_some hs
      have : (b + 3) * ((brp + 1) % 65536 + 1) ≤ 25 * 65536 :=
        Nat.mul_le_mul (by omega) (by omega)
      omega
    | none => simpa only [hs] using ih _ hlt

/-- The timing word of a hit is not zero: TSEG1 is at least 1 from table
entry 1 on. -/
theorem btr_ne_zero (bits psjw brp : Nat) (h1 : 1 ≤ bits) (h2 : bits ≤ 22) :
    ((((timing_pts.getD bits (0, 0)).2 &&& 0x7) <<< 12)
      ||| (((timing_pts.getD bits (0, 0)).1 &&& 0xf) <<< 8)
      ||| ((psjw &&& 0x3) <<< 6)
      ||| (brp &&& 0x3F)) ||| ((1 - 1) <<< 16) ≠ 0 := by
  have h : (((timing_pts.getD bits (0, 0)).1 &&& 0xf) <<< 8) ≠ 0 := by
    interval_cases bits <;> decide
  exact or_ne_zero_left _ (or_ne_zero_left _ (or_ne_zero_left _ (or_ne_zero_right _ h)))

/-! ## Claims -/

/-- Claim C1, as stated, fails: written to slot 32 and read back, the
standard data frame `frame_std_data` returns with type remote, and the
extended frame `frame_ext_remote` (identifier 1) returns with identifier
0x10000 and type data. -/
theorem can_write_read_roundtrip_counterexample :
    (can_write State.zero frame_std_data 0).2 = 1 ∧
    (can_read (can_write State.zero frame_std_data 0).1 frame_std_data 32).2.2 = 1 ∧
    frame_std_data.type = CANType.CANData ∧
    (can_read (can_write State.zero frame_std_data 0).1 frame_std_data 32).2.1.type
      = CANType.CANRemote ∧
    (can_write State.zero frame_ext_remote 0).2 = 1 ∧
    (can_read (can_write State.zero frame_ext_remote 0).1 frame_ext_remote 32).2.2 = 1 ∧
    frame_ext_remote.id = 1 ∧
    (can_read (can_write State.zero frame_ext_remote 0).1 frame_ext_remote 32).2.1.id
      = 0x10000 ∧
    (can_read (can_write State.zero frame_ext_remote 0).1 frame_ext_remote 32).2.1.type
      = CANType.CANData := by
  decide

/-- Claim C1, amended: for every frame with an identifier valid for its
format (at most 0x7FF standard, at most 0x1FFFFFFF extended), length at most 8
and byte-sized payload, `can_write` with slot 32 not pending returns 1 and the
following `can_read` of handle 32 returns 1 with the same format, length and
payload and, for a standard-format frame, the same identifier; the type read
back is remote when a data frame was written and data when a remote frame was
written. -/
theorem can_write_read_fields (s : State) (msg m0 : CAN_Message) (cc : Int)
    (hfmt : (msg.format = CANFormat.CANStandard ∧ msg.id ≤ 0x7FF) ∨
      (msg.format = CANFormat.CANExtended ∧ msg.id ≤ 0x1FFFFFFF))
    (hlen : msg.len ≤ 8) (hdata : ∀ i, msg.data i < 256)
    (hp : s.CANTXREQ2.testBit 15 = false) :
    (can_write s msg cc).2 = 1 ∧
    (can_read (can_write s msg cc).1 m0 32).2.2 = 1 ∧
    (can_read (can_write s msg cc).1 m0 32).2.1.format = msg.format ∧
    (can_read (can_write s msg cc).1 m0 32).2.1.len = msg.len ∧
    (can_read (can_write s msg cc).1 m0 32).2.1.data = msg.data ∧
    (can_read (can_write s msg cc).1 m0 32).2.1.type =
      (if msg.type = CANType.CANData then CANType.CANRemote else CANType.CANData) ∧
    (msg.format = CANFormat.CANStandard →
      (can_read (can_write s msg cc).1 m0 32).2.1.id = msg.id) := by
  obtain ⟨hr, _, hfr⟩ := can_read_slot (can_write s msg cc).1 m0 32 (by decide) (by decide)
  simp only [Nat.cast_ofNat] at hr hfr
  have hd : (if msg.type = CANType.CANData then CANIFn_ARB2_DIR else 0) = 0x2000 ∨
      (if msg.type = CANType.CANData then CANIFn_ARB2_DIR else 0) = 0 := by
    by_cases h : msg.type = CANType.CANData <;> simp [h]
  have hbytes : ∀ d1 d2 d3 d4 : Nat,
      d1 = ((msg.data 1 &&& 0xFF) <<< 8) ||| (msg.data 0 &&& 0xFF) →
      d2 = ((msg.data 3 &&& 0xFF) <<< 8) ||| (msg.data 2 &&& 0xFF) →
      d3 = ((msg.data 5 &&& 0xFF) <<< 8) ||| (msg.data 4 &&& 0xFF) →
      d4 = ((msg.data 7 &&& 0xFF) <<< 8) ||| (msg.data 6 &&& 0xFF) →
      ![(d1 >>> 0) &&& 0xFF, (d1 >>> 8) &&& 0xFF, (d2 >>> 0) &&& 0xFF, (d2 >>> 8) &&& 0xFF,
        (d3 >>> 0) &&& 0xFF, (d3 >>> 8) &&& 0xFF, (d4 >>> 0) &&& 0xFF, (d4 >>> 8) &&& 0xFF]
        = msg.data := by
    rintro d1 d2 d3 d4 rfl rfl rfl rfl
    funext i
    fin_cases i
    · exact pack_lo (msg.data 0) (msg.data 1) (hdata 0)
    · exact pack_hi (msg.data 0) (msg.data 1) (hdata 1)
    · exact pack_lo (msg.data 2) (msg.data 3) (hdata 2)
    · exact pack_hi (msg.data 2) (msg.data 3) (hdata 3)
    · exact pack_lo (msg.data 4) (msg.data 5) (hdata 4)
    · exact pack_hi (msg.data 4) (msg.data 5) (hdata 5)
    · exact pack_lo (msg.data 6) (msg.data 7) (hdata 6)
    · exact pack_hi (msg.data 6) (msg.data 7) (hdata 7)
  rcases hfmt with ⟨hstd, hid⟩ | ⟨hext, hid⟩
  · have hf : msg.format ≠ CANFormat.CANExtended := by rw [hstd]; decide
    obtain ⟨hw, hslot⟩ := can_write_std_slot s msg cc hp hf
    obtain ⟨a1, a2, a3⟩ := std_arb2 msg.id _ hid hd
    refine ⟨hw, hr, ?_, ?_, ?_, ?_, fun _ => ?_⟩
    · rw [hfr, hslot, hstd]; simp only [CANIFn_ARB2_XTD, CANIFn_ARB2_MSGVAL]
      rw [a1]; simp
    · rw [hfr, hslot]; exact mctrl_len msg.len hlen
    · rw [hfr, hslot]; exact hbytes _ _ _ _ rfl rfl rfl rfl
    · rw [hfr, hslot]; simp only [CANIFn_ARB2_DIR, CANIFn_ARB2_MSGVAL] at a3 ⊢
      by_cases h : msg.type = CANType.CANData
      · rw [if_pos h] at a3 ⊢
        rw [if_pos h, if_pos (a3.mpr rfl)]
      · rw [if_neg h] at a3 ⊢
        rw [if_neg h, if_neg (fun hne => absurd (a3.mp hne) (by decide))]
    · rw [hfr, hslot]; simp only [CANIFn_ARB2_XTD, CANIFn_ARB2_MSGVAL]
      rw [a1]; simpa using a2
  · obtain ⟨hw, hslot⟩ := can_write_ext_slot s msg cc hp hext
    obtain ⟨a1, a3⟩ := ext_arb2 msg.id _ hid hd
    refine ⟨hw, hr, ?_, ?_, ?_, ?_, fun h => ?_⟩
    · rw [hfr, hslot, hext]; simp only [CANIFn_ARB2_XTD, CANIFn_ARB2_MSGVAL]
      rw [if_pos a1]
    · rw [hfr, hslot]; exact mctrl_len msg.len hlen
    · rw [hfr, hslot]; exact hbytes _ _ _ _ rfl rfl rfl rfl
    · rw [hfr, hslot]
      simp only [CANIFn_ARB2_DIR, CANIFn_ARB2_MSGVAL, CANIFn_ARB2_XTD] at a3 ⊢
      by_cases h : msg.type = CANType.CANData
      · rw [if_pos h] at a3 ⊢
        rw [if_pos h, if_pos (a3.mpr rfl)]
      · rw [if_neg h] at a3 ⊢
        rw [if_neg h, if_neg (fun hne => absurd (a3.mp hne) (by decide))]
    · rw [hext] at h; cases h

/-- Witness of `can_write_read_fields`: the frame `frame_std_data` written
from the zero state. -/
theorem can_write_read_fields_witness :
    ((frame_std_data.format = CANFormat.CANStandard ∧ frame_std_data.id ≤ 0x7FF) ∨
      (frame_std_data.format = CANFormat.CANExtended ∧ frame_std_data.id ≤ 0x1FFFFFFF)) ∧
    frame_std_data.len ≤ 8 ∧ (∀ i, frame_std_data.data i < 256) ∧
    State.zero.CANTXREQ2.testBit 15 = false ∧
    (can_write State.zero frame_std_data 0).2 = 1 ∧
    (can_read (can_write State.zero frame_std_data 0).1 frame_ext_remote 32).2.2 = 1 ∧
    (can_read (can_write State.zero frame_std_data 0).1 frame_ext_remote 32).2.1.format
      = frame_std_data.format ∧
    (can_read (can_write State.zero frame_std_data 0).1 frame_ext_remote 32).2.1.len
      = frame_std_data.len ∧
    (can_read (can_write State.zero frame_std_data 0).1 frame_ext_remote 32).2.1.data
      = frame_std_data.data ∧
    (can_read (can_write State.zero frame_std_data 0).1 frame_ext_remote 32).2.1.type =
      (if frame_std_data.type = CANType.CANData then CANType.CANRemote
        else CANType.CANData) ∧
    (frame_std_data.format = CANFormat.CANStandard →
      (can_read (can_write State.zero frame_std_data 0).1 frame_ext_remote 32).2.1.id
        = frame_std_data.id) :=
  ⟨by decide, by decide, by decide, by decide,
    can_write_read_fields State.zero frame_std_data frame_ext_remote 0 (by decide)
      (by decide) (by decide) (by decide)⟩

/-- Claim C2 fails on the code: at 72 MHz and 10 kbit/s (7200 quanta per bit)
the search hits at prescaler 359, which the 6-bit field cuts to 39; the
returned word 0x4D67 is not zero and decodes to (13 + 4 + 3) * (39 + 1) = 800
quanta, not 7200. -/
theorem can_speed_prescaler_truncated :
    can_speed 100 72000000 10000 1 = some 0x4D67 ∧
    (0x4D67 : Nat) ≠ 0 ∧
    (((0x4D67 >>> 8) &&& 0xF) + ((0x4D67 >>> 12) &&& 0x7) + 3) * ((0x4D67 &&& 0x3F) + 1) = 800 ∧
    72000000 / 10000 = 7200 := by
  decide

/-- Claim C3, as stated, fails: for 5 quanta per bit the pair prescaler 0,
segment count 2 lies in the stated range, yet `can_speed` returns 0; and for
4000000000 quanta per bit `can_speed` returns nothing at all, whatever the
number of iterations allowed. -/
theorem can_speed_zero_counterexample :
    can_speed 10 5 1 1 = some 0 ∧
    (∃ p s, 5 / 1 / 24 ≤ p ∧ p < 5 / 1 / 4 ∧ 1 ≤ s ∧ s ≤ 22 ∧ (s + 3) * (p + 1) = 5 / 1) ∧
    (∀ fuel, can_speed fuel 4000000000 1 1 = none) := by
  refine ⟨by decide, ⟨0, 2, by decide⟩, fun fuel => ?_⟩
  unfold can_speed
  have h := speed_search_diverges (4000000000 / 1) (by decide) fuel
    ((4000000000 / 1 / 0x18) % 65536) (Nat.mod_lt _ (by decide))
  simp only [h]

/-- Claim C3, amended: for every `sclk` and non-zero `cclk` with
`bitwidth = sclk / cclk` below 262144 (the 16-bit prescaler counter cannot
wrap), `can_speed` returns a word once more than `bitwidth / 4` iterations
are allowed, and the word is 0 exactly when there is no prescaler `p` with
`bitwidth / 24 < p < bitwidth / 4` and segment count `s` in 1..22 such that
`(s + 3) * (p + 1) = bitwidth`. -/
theorem can_speed_zero_iff (sclk cclk psjw : Nat) (_hc : 0 < cclk)
    (hb : sclk / cclk < 262144) :
    ∃ w, (∀ fuel, sclk / cclk / 4 < fuel → can_speed fuel sclk cclk psjw = some w) ∧
      (w = 0 ↔ ¬ ∃ p s, sclk / cclk / 24 < p ∧ p < sclk / cclk / 4 ∧ 1 ≤ s ∧ s ≤ 22 ∧
        (s + 3) * (p + 1) = sclk / cclk) := by
  have hbw : sclk / cclk / 4 < 65536 := by omega
  have hm : (sclk / cclk / 0x18) % 65536 = sclk / cclk / 24 := Nat.mod_eq_of_lt (by omega)
  obtain ⟨r, hr, hspec⟩ := speed_search_spec (sclk / cclk) hbw (sclk / cclk / 4 + 1)
    (sclk / cclk / 24) (by omega)
  have hall : ∀ fuel, sclk / cclk / 4 < fuel →
      speed_search (sclk / cclk) fuel (sclk / cclk / 24) = some r :=
    fun fuel hf => speed_search_mono _ _ _ _ hr fuel (by omega)
  cases r with
  | none =>
    refine ⟨0, fun fuel hf => ?_, ?_⟩
    · unfold can_speed
      simp only [hm, hall fuel hf]
    · simp only [true_iff]
      rintro ⟨p, b, h1, h2, h3, h4, h5⟩
      exact hspec p b h1 (by omega) h3 h4 h5
  | some pb =>
    obtain ⟨p, b⟩ := pb
    obtain ⟨g1, g2, g3, g4, g5, _⟩ := hspec
    refine ⟨((((timing_pts.getD b (0, 0)).2 &&& 0x7) <<< 12)
      ||| (((timing_pts.getD b (0, 0)).1 &&& 0xf) <<< 8)
      ||| ((psjw &&& 0x3) <<< 6)
      ||| (p &&& 0x3F)) ||| ((1 - 1) <<< 16), fun fuel hf => ?_, ?_⟩
    · unfold can_speed
      simp only [hm, hall fuel hf]
    · have hne := btr_ne_zero b psjw p g3 g4
      have h4 : 4 * (p + 1) ≤ sclk / cclk := by
        rw [← g5]; exact Nat.mul_le_mul_right _ (by omega)
      constructor
      · intro h0; exact absurd h0 hne
      · intro hno
        exact absurd ⟨p, b, g1, by omega, g3, g4, g5⟩ hno

/-- Witness of `can_speed_zero_iff`: 12 MHz at 100 kbit/s. -/
theorem can_speed_zero_iff_witness :
    0 < 100000 ∧ 12000000 / 100000 < 262144 ∧
    ∃ w, (∀ fuel, 12000000 / 100000 / 4 < fuel → can_speed fuel 12000000 100000 1 = some w) ∧
      (w = 0 ↔ ¬ ∃ p s, 12000000 / 100000 / 24 < p ∧ p < 12000000 / 100000 / 4 ∧ 1 ≤ s ∧
        s ≤ 22 ∧ (s + 3) * (p + 1) = 12000000 / 100000) :=
  ⟨by decide, by decide, can_speed_zero_iff 12000000 100000 1 (by decide) (by decide)⟩

/-- Claim C4 fails on the code: with slots 1..31 valid and slot 32 not
(`CANMSGV1 = 0xFFFF`, `CANMSGV2 = 0x7FFF`), `can_filter` with handle 0
returns 32 and writes the filter into the transmit slot, where the claim has
it return 0. -/
theorem can_filter_auto_takes_tx_slot :
    state_rx_slots_full.CANMSGV1 = 0xFFFF ∧ state_rx_slots_full.CANMSGV2 = 0x7FFF ∧
    slot_bit state_rx_slots_full.CANMSGV1 state_rx_slots_full.CANMSGV2 32 = false ∧
    (List.range 31).all
      (fun i => slot_bit state_rx_slots_full.CANMSGV1 state_rx_slots_full.CANMSGV2 (i + 1))
      = true ∧
    (can_filter state_rx_slots_full 0x123 0x7FF CANFormat.CANStandard 0).2 = 32 ∧
    ((can_filter state_rx_slots_full 0x123 0x7FF CANFormat.CANStandard 0).1.ram 32).arb2
      = 0x848C := by
  decide

/-- Claim C5: with slot 32 pending (bit 15 of `CANTXREQ2` set), `can_write`
returns 0 and the state after it is the state before it except for
`CANCNTL`, whose INIT bit is cleared if it was set. -/
theorem can_write_busy (s : State) (msg : CAN_Message) (cc : Int)
    (hp : s.CANTXREQ2.testBit 15 = true) :
    (can_write s msg cc).2 = 0 ∧
    (can_write s msg cc).1 =
      { s with CANCNTL :=
          if s.CANCNTL &&& 0x1 ≠ 0 then s.CANCNTL &&& 0xFFFFFFFE else s.CANCNTL } := by
  unfold can_write
  simp only [tx_scan, can_enable_eq, txPending_bit31, hp, if_true, and_self]

/-- Witness of `can_write_busy`: the zero state with slot 32 pending. -/
theorem can_write_busy_witness :
    state_tx_pending.CANTXREQ2.testBit 15 = true ∧
    (can_write state_tx_pending frame_std_data 0).2 = 0 ∧
    (can_write state_tx_pending frame_std_data 0).1 =
      { state_tx_pending with CANCNTL :=
          if state_tx_pending.CANCNTL &&& 0x1 ≠ 0 then state_tx_pending.CANCNTL &&& 0xFFFFFFFE
          else state_tx_pending.CANCNTL } :=
  ⟨by decide, can_write_busy state_tx_pending frame_std_data 0 (by decide)⟩

/-- Claim C6: `can_tx_status` is BUSY when bit 15 of `CANTXREQ2` (slot 32) is
set and IDLE when it is clear, whatever the other transmit-request bits, and
is never AVAILABLE. -/
theorem can_tx_status_eq (s : State) :
    can_tx_status s =
      (if s.CANTXREQ2.testBit 15 then CanTxState.TX_STATE_BUSY else CanTxState.TX_STATE_IDLE) ∧
    can_tx_status s ≠ CanTxState.TX_STATE_AVAILABLE := by
  unfold can_tx_status
  simp only [tx_count, txPending_bit31]
  cases hb : s.CANTXREQ2.testBit 15
  · simp
  · have hne : ((s.CANTXREQ1 &&& 0xFF) ||| (s.CANTXREQ2 <<< 16)) % 2 ^ 32 ≠ 0 := by
      intro h0
      have h := txPending_bit31 s.CANTXREQ1 s.CANTXREQ2
      rw [h0, hb] at h
      simp at h
    simp only [hne, ne_eq, not_false_eq_true, if_true]
    simp

/-- Closed form of `can_irq` on a status interrupt. -/
theorem can_irq_status_form (s : State) (hid : s.CANINT &&& 0xFFFF = 0x8000) :
    (can_irq s).calls = s.calls ++
      (([(7, CanIrqType.IRQ_BUS), (6, CanIrqType.IRQ_ERROR), (5, CanIrqType.IRQ_PASSIVE),
          (4, CanIrqType.IRQ_RX), (3, CanIrqType.IRQ_TX)].filter
          (fun p => s.CANSTAT.testBit p.1)).map (fun p => (s.can_irq_id, p.2))) ∧
    (can_irq s).CANSTAT =
      (if s.CANSTAT.testBit 3 then
        (if s.CANSTAT.testBit 4 then s.CANSTAT &&& 0xFFFFFFEF else s.CANSTAT) &&& 0xFFFFFFF7
       else (if s.CANSTAT.testBit 4 then s.CANSTAT &&& 0xFFFFFFEF else s.CANSTAT)) := by
  have h7 : (s.CANSTAT &&& 0x80 ≠ 0) = (s.CANSTAT.testBit 7 = true) :=
    propext (and_pow_ne_zero s.CANSTAT 7)
  have h6 : (s.CANSTAT &&& 0x40 ≠ 0) = (s.CANSTAT.testBit 6 = true) :=
    propext (and_pow_ne_zero s.CANSTAT 6)
  have h5 : (s.CANSTAT &&& 0x20 ≠ 0) = (s.CANSTAT.testBit 5 = true) :=
    propext (and_pow_ne_zero s.CANSTAT 5)
  have h4 : (s.CANSTAT &&& 0x10 ≠ 0) = (s.CANSTAT.testBit 4 = true) :=
    propext (and_pow_ne_zero s.CANSTAT 4)
  have h3 : (s.CANSTAT &&& 0x08 ≠ 0) = (s.CANSTAT.testBit 3 = true) :=
    propext (and_pow_ne_zero s.CANSTAT 3)
  unfold can_irq
  simp only [RX_MSG_OBJ_COUNT, hid, CANSTAT_BOFF, CANSTAT_EWARN, CANSTAT_EPASS, CANSTAT_RXOK,
    CANSTAT_TXOK, h7, h6, h5, h4, h3]
  rw [if_neg (by decide), if_neg (by decide), if_pos trivial]
  cases b7 : s.CANSTAT.testBit 7 <;> cases b6 : s.CANSTAT.testBit 6 <;>
    cases b5 : s.CANSTAT.testBit 5 <;> cases b4 : s.CANSTAT.testBit 4 <;>
    cases b3 : s.CANSTAT.testBit 3 <;>
    simp [irq_handler, b7, b6, b5, b4, b3]

/-- Claim C7: on interrupt identifier 0x8000 the callback invocations added by
`can_irq` are exactly the events of [bus-off, warning, passive, RX-OK, TX-OK]
whose status bit (7, 6, 5, 4, 3) is set, in that order, each with the
registered identifier, whatever the enable flags; afterwards `CANSTAT` is the
32-bit status with bits 3 and 4 cleared and every other bit unchanged. -/
theorem can_irq_status (s : State) (hid : s.CANINT &&& 0xFFFF = 0x8000)
    (hw : s.CANSTAT < 2 ^ 32) :
    (can_irq s).calls = s.calls ++
      (([(7, CanIrqType.IRQ_BUS), (6, CanIrqType.IRQ_ERROR), (5, CanIrqType.IRQ_PASSIVE),
          (4, CanIrqType.IRQ_RX), (3, CanIrqType.IRQ_TX)].filter
          (fun p => s.CANSTAT.testBit p.1)).map (fun p => (s.can_irq_id, p.2))) ∧
    (∀ i, (can_irq s).CANSTAT.testBit i
      = (s.CANSTAT.testBit i && decide (i ≠ 3 ∧ i ≠ 4))) := by
  have m4 := testBit_clear_mask 0xFFFFFFEF 4 (by decide) (by decide)
  have m3 := testBit_clear_mask 0xFFFFFFF7 3 (by decide) (by decide)
  have hhi : ∀ i, ¬ i < 32 → s.CANSTAT.testBit i = false := fun i hi =>
    Nat.testBit_lt_two_pow (lt_of_lt_of_le hw (Nat.pow_le_pow_right (by decide) (not_lt.mp hi)))
  obtain ⟨hcalls, hstat⟩ := can_irq_status_form s hid
  refine ⟨hcalls, fun i => ?_⟩
  rw [hstat]
  cases b4 : s.CANSTAT.testBit 4 <;> cases b3 : s.CANSTAT.testBit 3 <;>
    by_cases hi : i < 32 <;> by_cases i3 : i = 3 <;> by_cases i4 : i = 4 <;>
    simp_all [Nat.testBit_and]

/-- Witness of `can_irq_status`: bus-off and warning set; two events, bus-off
first, and `CANSTAT` keeps every bit. -/
theorem can_irq_status_witness :
    state_status_irq.CANINT &&& 0xFFFF = 0x8000 ∧ state_status_irq.CANSTAT < 2 ^ 32 ∧
    (can_irq state_status_irq).calls = [(5, CanIrqType.IRQ_BUS), (5, CanIrqType.IRQ_ERROR)] ∧
    (∀ i, (can_irq state_status_irq).CANSTAT.testBit i
      = (state_status_irq.CANSTAT.testBit i && decide (i ≠ 3 ∧ i ≠ 4))) :=
  ⟨by decide, by decide,
    (can_irq_status state_status_irq (by decide) (by decide)).1.trans (by decide),
    (can_irq_status state_status_irq (by decide) (by decide)).2⟩

/-- Claim C8: on interrupt identifier `n` (the low 16 bits of `CANINT`): for
`n` in 1..31 the callback is invoked once with `IRQ_RX` if `rx_interrupts` is
non-zero and not at all otherwise; for `n = 32` once with `IRQ_TX` if
`tx_interrupts` is non-zero and not at all otherwise; in both cases the
interface-2 command mask is left as clear-interrupt-pending | new-data and the
command request as `n`; for `n = 0` and for `n` from 33 on other than 0x8000
the state is unchanged. -/
theorem can_irq_msgobj (s : State) :
    (1 ≤ s.CANINT &&& 0xFFFF ∧ s.CANINT &&& 0xFFFF ≤ 31 →
      (can_irq s).calls
          = s.calls ++ (if s.rx_interrupts ≠ 0 then [(s.can_irq_id, CanIrqType.IRQ_RX)] else []) ∧
        (can_irq s).CANIF2_CMDMSK_W = CANIFn_CMDMSK_CLRINTPND ||| CANIFn_CMDMSK_NEWDAT ∧
        (can_irq s).CANIF2_CMDREQ = s.CANINT &&& 0xFFFF) ∧
    (s.CANINT &&& 0xFFFF = 32 →
      (can_irq s).calls
          = s.calls ++ (if s.tx_interrupts ≠ 0 then [(s.can_irq_id, CanIrqType.IRQ_TX)] else []) ∧
        (can_irq s).CANIF2_CMDMSK_W = CANIFn_CMDMSK_CLRINTPND ||| CANIFn_CMDMSK_NEWDAT ∧
        (can_irq s).CANIF2_CMDREQ = 32) ∧
    (s.CANINT &&& 0xFFFF = 0 ∨ (33 ≤ s.CANINT &&& 0xFFFF ∧ s.CANINT &&& 0xFFFF ≠ 0x8000) →
      can_irq s = s) := by
  refine ⟨fun h => ?_, fun h => ?_, fun h => ?_⟩
  · have hc := can_clear_interrupt_eq
    unfold can_irq
    simp only [RX_MSG_OBJ_COUNT]
    rw [if_pos h]
    simp only [hc _ _ h.1 (by omega : s.CANINT &&& 0xFFFF ≤ 32)]
    by_cases hr : s.rx_interrupts = 0
    · simp [hr]
    · simp [hr, irq_handler]
  · have hc := can_clear_interrupt_eq
    unfold can_irq
    simp only [RX_MSG_OBJ_COUNT]
    rw [if_neg (by omega), if_pos (by omega)]
    simp only [hc _ _ (by omega : 1 ≤ s.CANINT &&& 0xFFFF) (by omega : s.CANINT &&& 0xFFFF ≤ 32)]
    by_cases hr : s.tx_interrupts = 0
    · simp [hr, h]
    · simp [hr, irq_handler, h]
  · unfold can_irq
    simp only [RX_MSG_OBJ_COUNT]
    rw [if_neg (by omega), if_neg (by omega), if_neg (by omega)]

/-- Witness of `can_irq_msgobj`: message object 3 with receive notifications
enabled. -/
theorem can_irq_msgobj_witness :
    (1 ≤ state_msgobj_irq.CANINT &&& 0xFFFF ∧ state_msgobj_irq.CANINT &&& 0xFFFF ≤ 31) ∧
    (can_irq state_msgobj_irq).calls = state_msgobj_irq.calls ++
      (if state_msgobj_irq.rx_interrupts ≠ 0 then
        [(state_msgobj_irq.can_irq_id, CanIrqType.IRQ_RX)] else []) ∧
    (can_irq state_msgobj_irq).CANIF2_CMDMSK_W
      = CANIFn_CMDMSK_CLRINTPND ||| CANIFn_CMDMSK_NEWDAT ∧
    (can_irq state_msgobj_irq).CANIF2_CMDREQ = state_msgobj_irq.CANINT &&& 0xFFFF :=
  ⟨by decide, (can_irq_msgobj state_msgobj_irq).1 (by decide)⟩

/-- Claim C9 fails on the code: an explicit handle outside 1..32 leaves the
state as it was but is returned as it came, 33 for 33 and -1 for -1, where
the claim has 0. -/
theorem can_filter_bad_handle_returned :
    can_filter State.zero 0x123 0x7FF CANFormat.CANStandard 33 = (State.zero, 33) ∧
    can_filter State.zero 0x123 0x7FF CANFormat.CANStandard (-1) = (State.zero, -1) :=
  ⟨rfl, rfl⟩

/-- Claim C10: `can_read` with handle 0 reads the lowest-numbered slot of
1..31 whose new-data bit is set: it behaves as `can_read` with that slot as
handle, returns 1 and leaves that slot in the interface-2 command request.
When no slot of 1..31 has its bit set, whatever the bit of slot 32, it returns
0, leaves the output frame as it was and changes nothing in the state but the
INIT bit of `CANCNTL`, which it clears. -/
theorem can_read_auto (s : State) (m0 : CAN_Message) (hlo : s.CANND1 < 2 ^ 16) :
    (∀ k, 1 ≤ k → k ≤ 31 → slot_bit s.CANND1 s.CANND2 k = true →
      (∀ j, 1 ≤ j → j < k → slot_bit s.CANND1 s.CANND2 j = false) →
        can_read s m0 0 = can_read s m0 (k : Int) ∧ (can_read s m0 0).2.2 = 1 ∧
        (can_read s m0 0).1.CANIF2_CMDREQ = k) ∧
    ((∀ k, 1 ≤ k → k ≤ 31 → slot_bit s.CANND1 s.CANND2 k = false) →
      (can_read s m0 0).2.2 = 0 ∧ (can_read s m0 0).2.1 = m0 ∧
      (can_read s m0 0).1 = { s with CANCNTL :=
        if s.CANCNTL &&& 0x1 ≠ 0 then s.CANCNTL &&& 0xFFFFFFFE else s.CANCNTL }) := by
  have hbit : ∀ i, i < 31 →
      (((s.CANND1 ||| (s.CANND2 <<< 16)) % 2 ^ 32) &&& (1 <<< i) != 0)
        = slot_bit s.CANND1 s.CANND2 (i + 1) :=
    fun i hi => bitmap_bit _ _ i hlo (by omega)
  constructor
  · intro k k1 k31 hk hlow
    have hscan : scanFrom (fun i => ((s.CANND1 ||| (s.CANND2 <<< 16)) % 2 ^ 32)
        &&& (1 <<< i) != 0) 0 RX_MSG_OBJ_COUNT = some (k - 1) := by
      show scanFrom _ 0 31 = some (k - 1)
      apply scanFrom_lowest (Nat.zero_le _) (by omega)
      · show (_ != 0) = true
        rw [hbit (k - 1) (by omega)]
        have : k - 1 + 1 = k := by omega
        rw [this]; exact hk
      · intro m _ hm
        show (_ != 0) = false
        rw [hbit m (by omega)]
        exact hlow (m + 1) (by omega) (by omega)
    have hkz : ((k - 1 : Nat) : Int) + 1 = (k : Int) := by omega
    have e : can_read s m0 0 = can_read s m0 (k : Int) := by
      have hk0 : ¬ ((k : Int) = 0) := by omega
      unfold can_read
      simp only [can_enable_eq, hscan, hkz, if_neg hk0, if_true]
    obtain ⟨r1, r2, _⟩ := can_read_slot s m0 k k1 (by omega)
    rw [e]
    exact ⟨rfl, r1, r2⟩
  · intro hnone
    have hscan : scanFrom (fun i => ((s.CANND1 ||| (s.CANND2 <<< 16)) % 2 ^ 32)
        &&& (1 <<< i) != 0) 0 RX_MSG_OBJ_COUNT = none := by
      show scanFrom _ 0 31 = none
      apply scanFrom_all_false
      intro m _ hm
      show (_ != 0) = false
      rw [hbit m (by omega)]
      exact hnone (m + 1) (by omega) (by omega)
    unfold can_read
    simp only [can_enable_eq, hscan, if_true]
    simp

/-- Witness of `can_read_auto`: new data in slots 3 and 20; slot 3 is read. -/
theorem can_read_auto_witness :
    state_new_data.CANND1 < 2 ^ 16 ∧
    slot_bit state_new_data.CANND1 state_new_data.CANND2 3 = true ∧
    slot_bit state_new_data.CANND1 state_new_data.CANND2 20 = true ∧
    (∀ j, 1 ≤ j → j < 3 → slot_bit state_new_data.CANND1 state_new_data.CANND2 j = false) ∧
    can_read state_new_data frame_std_data 0 = can_read state_new_data frame_std_data 3 ∧
    (can_read state_new_data frame_std_data 0).2.2 = 1 ∧
    (can_read state_new_data frame_std_data 0).1.CANIF2_CMDREQ = 3 :=
  ⟨by decide, by decide, by decide, fun j h1 h2 => by interval_cases j <;> rfl,
    (can_read_auto state_new_data frame_std_data (by decide)).1 3 (by decide) (by decide)
      (by decide) (fun j h1 h2 => by interval_cases j <;> rfl)⟩

/-! ## Mode control and monitor toggle -/

/-- Bits of a register after `reg |= 1 << k`. -/
theorem testBit_or_bit (x k i : Nat) :
    (x ||| 2 ^ k).testBit i = (x.testBit i || decide (i = k)) := by
  rw [Nat.testBit_or, Nat.testBit_two_pow]
  by_cases h : i = k
  · subst h; simp
  · have h2 : ¬ k = i := fun e => h e.symm
    simp [h, h2]

/-- Bits of a 32-bit register after `reg &= ~(1 << k)`. -/
theorem testBit_and_clear (x m k : Nat) (hx : x < 2 ^ 32) (hk : k < 32)
    (hm : m = 2 ^ 32 - 1 - 2 ^ k) (i : Nat) :
    (x &&& m).testBit i = (x.testBit i && decide (i ≠ k)) := by
  rw [Nat.testBit_and, testBit_clear_mask m k hk hm i]
  by_cases hi : i < 32
  · simp [hi]
  · have : x.testBit i = false :=
      Nat.testBit_lt_two_pow (lt_of_lt_of_le hx (Nat.pow_le_pow_right (by decide) (not_lt.mp hi)))
    simp [this]

/-- Claim C11: `can_mode` returns 1 for each of the five supported modes; for
`MODE_TEST_GLOBAL` and every other mode value it returns 0 and leaves the
whole state, `CANCNTL` and `CANTEST` included, as it was; and whenever it
returns 0 the state is unchanged. -/
theorem can_mode_result (s : State) :
    (can_mode s MODE_RESET).2 = 1 ∧ (can_mode s MODE_NORMAL).2 = 1 ∧
    (can_mode s MODE_SILENT).2 = 1 ∧ (can_mode s MODE_TEST_LOCAL).2 = 1 ∧
    (can_mode s MODE_TEST_SILENT).2 = 1 ∧
    can_mode s MODE_TEST_GLOBAL = (s, 0) ∧
    (∀ mode : Int, mode ≠ MODE_RESET → mode ≠ MODE_NORMAL → mode ≠ MODE_SILENT →
      mode ≠ MODE_TEST_LOCAL → mode ≠ MODE_TEST_SILENT → can_mode s mode = (s, 0)) ∧
    (∀ mode : Int, (can_mode s mode).2 = 0 →
      (can_mode s mode).1 = s ∧ (can_mode s mode).1.CANCNTL = s.CANCNTL ∧
      (can_mode s mode).1.CANTEST = s.CANTEST) := by
  have hother : ∀ mode : Int, mode ≠ MODE_RESET → mode ≠ MODE_NORMAL → mode ≠ MODE_SILENT →
      mode ≠ MODE_TEST_LOCAL → mode ≠ MODE_TEST_SILENT → can_mode s mode = (s, 0) := by
    intro mode h0 h1 h2 h4 h5
    unfold can_mode
    rw [if_neg h0, if_neg h1, if_neg h2, if_neg h4, if_neg h5]
  refine ⟨rfl, rfl, rfl, rfl, rfl, rfl, hother, ?_⟩
  intro mode hz
  by_cases h0 : mode = MODE_RESET
  · subst h0
    have e : (1 : Int) = 0 := hz
    exact absurd e (by decide)
  by_cases h1 : mode = MODE_NORMAL
  · subst h1
    have e : (1 : Int) = 0 := hz
    exact absurd e (by decide)
  by_cases h2 : mode = MODE_SILENT
  · subst h2
    have e : (1 : Int) = 0 := hz
    exact absurd e (by decide)
  by_cases h4 : mode = MODE_TEST_LOCAL
  · subst h4
    have e : (1 : Int) = 0 := hz
    exact absurd e (by decide)
  by_cases h5 : mode = MODE_TEST_SILENT
  · subst h5
    have e : (1 : Int) = 0 := hz
    exact absurd e (by decide)
  rw [hother mode h0 h1 h2 h4 h5]
  exact ⟨rfl, rfl, rfl⟩

/-- Witness of `can_mode_result`: the mode value 17, outside the enumeration,
on the state with INIT set. -/
theorem can_mode_result_witness :
    (17 : Int) ≠ MODE_RESET ∧ (17 : Int) ≠ MODE_NORMAL ∧ (17 : Int) ≠ MODE_SILENT ∧
    (17 : Int) ≠ MODE_TEST_LOCAL ∧ (17 : Int) ≠ MODE_TEST_SILENT ∧
    can_mode state_init 17 = (state_init, 0) :=
  ⟨by decide, by decide, by decide, by decide, by decide,
    (can_mode_result state_init).2.2.2.2.2.2.1 17 (by decide) (by decide) (by decide)
      (by decide) (by decide)⟩

/-- Bits 0 and 7 of `CANCNTL` and bits 3 and 4 of `CANTEST` after each
supported mode. -/
theorem can_mode_bits (s : State) :
    (can_mode s MODE_RESET).1.CANCNTL.testBit 0 = true ∧
    ((can_mode s MODE_NORMAL).1.CANCNTL.testBit 0 = false ∧
      (can_mode s MODE_NORMAL).1.CANCNTL.testBit 7 = false) ∧
    ((can_mode s MODE_SILENT).1.CANCNTL.testBit 0 = s.CANCNTL.testBit 0 ∧
      (can_mode s MODE_SILENT).1.CANCNTL.testBit 7 = true ∧
      (can_mode s MODE_SILENT).1.CANTEST.testBit 3 = true ∧
      (can_mode s MODE_SILENT).1.CANTEST.testBit 4 = false) ∧
    ((can_mode s MODE_TEST_LOCAL).1.CANCNTL.testBit 0 = s.CANCNTL.testBit 0 ∧
      (can_mode s MODE_TEST_LOCAL).1.CANCNTL.testBit 7 = true ∧
      (can_mode s MODE_TEST_LOCAL).1.CANTEST.testBit 3 = false ∧
      (can_mode s MODE_TEST_LOCAL).1.CANTEST.testBit 4 = true) ∧
    ((can_mode s MODE_TEST_SILENT).1.CANCNTL.testBit 0 = s.CANCNTL.testBit 0 ∧
      (can_mode s MODE_TEST_SILENT).1.CANCNTL.testBit 7 = true ∧
      (can_mode s MODE_TEST_SILENT).1.CANTEST.testBit 3 = true ∧
      (can_mode s MODE_TEST_SILENT).1.CANTEST.testBit 4 = true) := by
  have k1 : Nat.testBit 0xFFFFFF7F 7 = false := by decide
  have k2 : Nat.testBit 0xFFFFFFFE 0 = false := by decide
  have k3 : Nat.testBit 0xFFFFFFFE 7 = true := by decide
  have k4 : Nat.testBit 0x80 0 = false := by decide
  have k5 : Nat.testBit 0x80 7 = true := by decide
  have k6 : Nat.testBit 0x8 3 = true := by decide
  have k7 : Nat.testBit 0xFFFFFFEF 3 = true := by decide
  have k8 : Nat.testBit 0xFFFFFFEF 4 = false := by decide
  have k9 : Nat.testBit 0xFFFFFFF7 3 = false := by decide
  have k10 : Nat.testBit 0x10 3 = false := by decide
  have k11 : Nat.testBit 0x10 4 = true := by decide
  have k12 : Nat.testBit (0x10 ||| 0x8) 3 = true := by decide
  have k13 : Nat.testBit (0x10 ||| 0x8) 4 = true := by decide
  have k14 : Nat.testBit 0x1 0 = true := by decide
  refine ⟨?_, ⟨?_, ?_⟩, ⟨?_, ?_, ?_, ?_⟩, ⟨?_, ?_, ?_, ?_⟩, ⟨?_, ?_, ?_, ?_⟩⟩
  · show ((s.CANCNTL &&& 0xFFFFFF7F) ||| 0x1).testBit 0 = true
    rw [Nat.testBit_or, k14]; simp
  · show (can_enable { s with CANCNTL := s.CANCNTL &&& 0xFFFFFF7F }).CANCNTL.testBit 0 = false
    rw [can_enable_eq]
    show (if (s.CANCNTL &&& 0xFFFFFF7F) &&& 0x1 ≠ 0 then (s.CANCNTL &&& 0xFFFFFF7F) &&& 0xFFFFFFFE
      else s.CANCNTL &&& 0xFFFFFF7F).testBit 0 = false
    split
    · rw [Nat.testBit_and, k2]; simp
    · rename_i h
      have := (and_pow_ne_zero (s.CANCNTL &&& 0xFFFFFF7F) 0).not.mp h
      simpa using this
  · show (can_enable { s with CANCNTL := s.CANCNTL &&& 0xFFFFFF7F }).CANCNTL.testBit 7 = false
    rw [can_enable_eq]
    show (if (s.CANCNTL &&& 0xFFFFFF7F) &&& 0x1 ≠ 0 then (s.CANCNTL &&& 0xFFFFFF7F) &&& 0xFFFFFFFE
      else s.CANCNTL &&& 0xFFFFFF7F).testBit 7 = false
    split
    · rw [Nat.testBit_and, Nat.testBit_and, k1]; simp
    · rw [Nat.testBit_and, k1]; simp
  · show (s.CANCNTL ||| 0x80).testBit 0 = _
    rw [Nat.testBit_or, k4]; simp
  · show (s.CANCNTL ||| 0x80).testBit 7 = _
    rw [Nat.testBit_or, k5]; simp
  · show ((s.CANTEST ||| 0x8) &&& 0xFFFFFFEF).testBit 3 = _
    rw [Nat.testBit_and, Nat.testBit_or, k6, k7]; simp
  · show ((s.CANTEST ||| 0x8) &&& 0xFFFFFFEF).testBit 4 = _
    rw [Nat.testBit_and, k8]; simp
  · show (s.CANCNTL ||| 0x80).testBit 0 = _
    rw [Nat.testBit_or, k4]; simp
  · show (s.CANCNTL ||| 0x80).testBit 7 = _
    rw [Nat.testBit_or, k5]; simp
  · show ((s.CANTEST &&& 0xFFFFFFF7) ||| 0x10).testBit 3 = _
    rw [Nat.testBit_or, Nat.testBit_and, k9, k10]; simp
  · show ((s.CANTEST &&& 0xFFFFFFF7) ||| 0x10).testBit 4 = _
    rw [Nat.testBit_or, k11]; simp
  · show (s.CANCNTL ||| 0x80).testBit 0 = _
    rw [Nat.testBit_or, k4]; simp
  · show (s.CANCNTL ||| 0x80).testBit 7 = _
    rw [Nat.testBit_or, k5]; simp
  · show (s.CANTEST ||| (0x10 ||| 0x8)).testBit 3 = _
    rw [Nat.testBit_or, k12]; simp
  · show (s.CANTEST ||| (0x10 ||| 0x8)).testBit 4 = _
    rw [Nat.testBit_or, k13]; simp

/-- Which mode a setting of the four mode bits encodes. -/
theorem spec_mode_encoded_iff (cntl test : Nat) (m : Int) :
    spec_mode_encoded cntl test m = true ↔
      (m = MODE_RESET ∧ cntl.testBit 0 = true) ∨
      (m = MODE_NORMAL ∧ cntl.testBit 0 = false ∧ cntl.testBit 7 = false) ∨
      (m = MODE_SILENT ∧ cntl.testBit 0 = false ∧ cntl.testBit 7 = true ∧
        test.testBit 3 = true ∧ test.testBit 4 = false) ∨
      (m = MODE_TEST_LOCAL ∧ cntl.testBit 0 = false ∧ cntl.testBit 7 = true ∧
        test.testBit 3 = false ∧ test.testBit 4 = true) ∨
      (m = MODE_TEST_SILENT ∧ cntl.testBit 0 = false ∧ cntl.testBit 7 = true ∧
        test.testBit 3 = true ∧ test.testBit 4 = true) := by
  unfold spec_mode_encoded
  by_cases h0 : m = MODE_RESET
  · subst h0; simp
  by_cases h1 : m = MODE_NORMAL
  · subst h1; simp
  by_cases h2 : m = MODE_SILENT
  · subst h2; simp [and_assoc]
  by_cases h4 : m = MODE_TEST_LOCAL
  · subst h4; simp [and_assoc]
  by_cases h5 : m = MODE_TEST_SILENT
  · subst h5; simp [and_assoc]
  simp [h0, h1, h2, h4, h5]

/-- Claim C17, as stated, fails: from the state with INIT set,
`can_mode(MODE_SILENT)` returns 1 and leaves INIT set; the registers do not
encode SILENT, they encode DISABLED/RESET. -/
theorem can_mode_silent_keeps_init :
    state_init.CANCNTL.testBit 0 = true ∧
    (can_mode state_init MODE_SILENT).2 = 1 ∧
    (can_mode state_init MODE_SILENT).1.CANCNTL.testBit 0 = true ∧
    spec_mode_encoded (can_mode state_init MODE_SILENT).1.CANCNTL
      (can_mode state_init MODE_SILENT).1.CANTEST MODE_SILENT = false ∧
    spec_mode_encoded (can_mode state_init MODE_SILENT).1.CANCNTL
      (can_mode state_init MODE_SILENT).1.CANTEST MODE_RESET = true := by
  decide

/-- Claim C17, amended: for every prior state and every supported mode `m`,
`can_mode(m)` returns 1; for RESET and NORMAL, and for the three test modes
when INIT was clear before the call, the registers afterwards encode `m` and
no other mode; the three test modes leave the INIT bit as it was. -/
theorem can_mode_encoding (s : State) (m : Int)
    (hm : m = MODE_RESET ∨ m = MODE_NORMAL ∨ m = MODE_SILENT ∨ m = MODE_TEST_LOCAL ∨
      m = MODE_TEST_SILENT) :
    (can_mode s m).2 = 1 ∧
    ((m = MODE_RESET ∨ m = MODE_NORMAL ∨ s.CANCNTL.testBit 0 = false) →
      ∀ m' : Int, spec_mode_encoded (can_mode s m).1.CANCNTL (can_mode s m).1.CANTEST m' = true
        ↔ m' = m) ∧
    ((m = MODE_SILENT ∨ m = MODE_TEST_LOCAL ∨ m = MODE_TEST_SILENT) →
      (can_mode s m).1.CANCNTL.testBit 0 = s.CANCNTL.testBit 0) := by
  obtain ⟨r0, ⟨n0, n7⟩, ⟨s0, s7, s3, s4⟩, ⟨l0, l7, l3, l4⟩, ⟨t0, t7, t3, t4⟩⟩ := can_mode_bits s
  rcases hm with rfl | rfl | rfl | rfl | rfl
  · refine ⟨rfl, fun _ m' => ?_, fun h => ?_⟩
    · rw [spec_mode_encoded_iff, r0]; simp
    · rcases h with h | h | h <;> exact absurd h (by decide)
  · refine ⟨rfl, fun _ m' => ?_, fun h => ?_⟩
    · rw [spec_mode_encoded_iff, n0, n7]; simp
    · rcases h with h | h | h <;> exact absurd h (by decide)
  · refine ⟨rfl, fun h m' => ?_, fun _ => s0⟩
    have hi : s.CANCNTL.testBit 0 = false := by
      rcases h with h | h | h
      · exact absurd h (by decide)
      · exact absurd h (by decide)
      · exact h
    rw [spec_mode_encoded_iff, s0, s7, s3, s4, hi]; simp
  · refine ⟨rfl, fun h m' => ?_, fun _ => l0⟩
    have hi : s.CANCNTL.testBit 0 = false := by
      rcases h with h | h | h
      · exact absurd h (by decide)
      · exact absurd h (by decide)
      · exact h
    rw [spec_mode_encoded_iff, l0, l7, l3, l4, hi]; simp
  · refine ⟨rfl, fun h m' => ?_, fun _ => t0⟩
    have hi : s.CANCNTL.testBit 0 = false := by
      rcases h with h | h | h
      · exact absurd h (by decide)
      · exact absurd h (by decide)
      · exact h
    rw [spec_mode_encoded_iff, t0, t7, t3, t4, hi]; simp

/-- Witness of `can_mode_encoding`: `MODE_TEST_LOCAL` from the zero state. -/
theorem can_mode_encoding_witness :
    (MODE_TEST_LOCAL = MODE_RESET ∨ MODE_TEST_LOCAL = MODE_NORMAL ∨
      MODE_TEST_LOCAL = MODE_SILENT ∨ MODE_TEST_LOCAL = MODE_TEST_LOCAL ∨
      MODE_TEST_LOCAL = MODE_TEST_SILENT) ∧
    State.zero.CANCNTL.testBit 0 = false ∧
    (can_mode State.zero MODE_TEST_LOCAL).2 = 1 ∧
    (∀ m' : Int, spec_mode_encoded (can_mode State.zero MODE_TEST_LOCAL).1.CANCNTL
      (can_mode State.zero MODE_TEST_LOCAL).1.CANTEST m' = true ↔ m' = MODE_TEST_LOCAL) :=
  ⟨by decide, by decide,
    (can_mode_encoding State.zero MODE_TEST_LOCAL (by decide)).1,
    (can_mode_encoding State.zero MODE_TEST_LOCAL (by decide)).2.1 (Or.inr (Or.inr (by decide)))⟩

/-- Bits of `CANCNTL` after the closing `if (!(CANCNTL & 1)) CANCNTL |= 1;`
of `can_monitor`. -/
theorem testBit_set_init (c i : Nat) :
    (if c &&& 0x1 = 0 then c ||| 0x1 else c).testBit i = (c.testBit i || decide (i = 0)) := by
  split
  · exact testBit_or_bit c 0 i
  · rename_i h
    have h0 : c.testBit 0 = true := (and_pow_ne_zero c 0).mp h
    by_cases hi : i = 0
    · subst hi; simp [h0]
    · simp [hi]

/-- Claim C18, as stated, fails: from the zero state, where INIT is clear,
`can_monitor(1)` leaves `CANCNTL = 0x81`: the INIT bit has been set. -/
theorem can_monitor_sets_init :
    State.zero.CANCNTL.testBit 0 = false ∧
    (can_monitor State.zero 1).CANCNTL = 0x81 ∧
    (can_monitor State.zero 1).CANCNTL.testBit 0 = true ∧
    (can_monitor State.zero 0).CANCNTL.testBit 0 = true := by
  decide

/-- Claim C18, amended: for every prior state with 32-bit `CANCNTL` and
`CANTEST` and every argument, `can_monitor` changes only the TEST bit (7) and
the INIT bit (0) of `CANCNTL` and the SILENT bit (3) of `CANTEST`: TEST and
SILENT are both set when the argument is non-zero and both cleared when it is
zero, INIT is set in either case; every other bit of `CANCNTL` and `CANTEST`
and every other register is unchanged. -/
theorem can_monitor_bits (s : State) (silent : Int) (hc : s.CANCNTL < 2 ^ 32)
    (ht : s.CANTEST < 2 ^ 32) :
    (∀ i, (can_monitor s silent).CANCNTL.testBit i =
      if i = 7 then decide (silent ≠ 0) else if i = 0 then true else s.CANCNTL.testBit i) ∧
    (∀ i, (can_monitor s silent).CANTEST.testBit i =
      if i = 3 then decide (silent ≠ 0) else s.CANTEST.testBit i) ∧
    can_monitor s silent = { s with CANCNTL := (can_monitor s silent).CANCNTL,
                                    CANTEST := (can_monitor s silent).CANTEST } := by
  by_cases hs : silent = 0
  · have e : can_monitor s silent = { s with
        CANCNTL := (if (s.CANCNTL &&& 0xFFFFFF7F) &&& 0x1 = 0
          then (s.CANCNTL &&& 0xFFFFFF7F) ||| 0x1 else s.CANCNTL &&& 0xFFFFFF7F),
        CANTEST := s.CANTEST &&& 0xFFFFFFF7 } := by
      unfold can_monitor
      simp only [hs, ne_eq, not_true_eq_false, if_false]
      split <;> rfl
    refine ⟨fun i => ?_, fun i => ?_, ?_⟩
    · rw [e]
      show (if (s.CANCNTL &&& 0xFFFFFF7F) &&& 0x1 = 0
          then (s.CANCNTL &&& 0xFFFFFF7F) ||| 0x1 else s.CANCNTL &&& 0xFFFFFF7F).testBit i = _
      rw [testBit_set_init, testBit_and_clear s.CANCNTL 0xFFFFFF7F 7 hc (by decide) (by decide)]
      by_cases h7 : i = 7
      · subst h7; simp [hs]
      · by_cases h0 : i = 0
        · subst h0; simp
        · simp [h7, h0]
    · rw [e]
      show (s.CANTEST &&& 0xFFFFFFF7).testBit i = _
      rw [testBit_and_clear s.CANTEST 0xFFFFFFF7 3 ht (by decide) (by decide)]
      by_cases h3 : i = 3
      · subst h3; simp [hs]
      · simp [h3]
    · rw [e]
  · have e : can_monitor s silent = { s with
        CANCNTL := (if (s.CANCNTL ||| 0x80) &&& 0x1 = 0
          then (s.CANCNTL ||| 0x80) ||| 0x1 else s.CANCNTL ||| 0x80),
        CANTEST := s.CANTEST ||| 0x8 } := by
      unfold can_monitor
      simp only [hs, ne_eq, not_false_eq_true, if_true]
      split <;> rfl
    refine ⟨fun i => ?_, fun i => ?_, ?_⟩
    · rw [e]
      show (if (s.CANCNTL ||| 0x80) &&& 0x1 = 0
          then (s.CANCNTL ||| 0x80) ||| 0x1 else s.CANCNTL ||| 0x80).testBit i = _
      have o7 : (s.CANCNTL ||| 0x80).testBit i = (s.CANCNTL.testBit i || decide (i = 7)) :=
        testBit_or_bit s.CANCNTL 7 i
      rw [testBit_set_init, o7]
      by_cases h7 : i = 7
      · subst h7; simp [hs]
      · by_cases h0 : i = 0
        · subst h0; simp
        · simp [h7, h0]
    · rw [e]
      show (s.CANTEST ||| 0x8).testBit i = _
      have o3 : (s.CANTEST ||| 0x8).testBit i = (s.CANTEST.testBit i || decide (i = 3)) :=
        testBit_or_bit s.CANTEST 3 i
      rw [o3]
      by_cases h3 : i = 3
      · subst h3; simp [hs]
      · simp [h3]
    · rw [e]

/-- Witness of `can_monitor_bits`: monitor mode switched on from the state
with INIT set. -/
theorem can_monitor_bits_witness :
    state_init.CANCNTL < 2 ^ 32 ∧ state_init.CANTEST < 2 ^ 32 ∧
    (∀ i, (can_monitor state_init 1).CANCNTL.testBit i =
      if i = 7 then decide ((1 : Int) ≠ 0) else if i = 0 then true
      else state_init.CANCNTL.testBit i) ∧
    (∀ i, (can_monitor state_init 1).CANTEST.testBit i =
      if i = 3 then decide ((1 : Int) ≠ 0) else state_init.CANTEST.testBit i) :=
  ⟨by decide, by decide,
    (can_monitor_bits state_init 1 (by decide) (by decide)).1,
    (can_monitor_bits state_init 1 (by decide) (by decide)).2.1⟩

/-! ## Bit timing: the prescaler found -/

/-- The prescaler field of a timing word holds the low six bits of `brp`. -/
theorem btr_prescaler (t2 t1 j brp c : Nat) (hb : brp ≤ 63) :
    (((t2 <<< 12) ||| (t1 <<< 8) ||| (j <<< 6) ||| (brp &&& 0x3F)) ||| (c <<< 16)) &&& 0x3F
      = brp := by
  have h63 : ∀ i, Nat.testBit 63 i = decide (i < 6) := fun i => Nat.testBit_two_pow_sub_one 6 i
  apply Nat.eq_of_testBit_eq
  intro i
  by_cases hi : i < 6
  · have g1 : ¬ 12 ≤ i := by omega
    have g2 : ¬ 8 ≤ i := by omega
    have g3 : ¬ 6 ≤ i := by omega
    have g4 : ¬ 16 ≤ i := by omega
    simp [Nat.testBit_and, Nat.testBit_or, Nat.testBit_shiftLeft, h63, hi, g1, g2, g3, g4]
  · have hz : brp.testBit i = false :=
      Nat.testBit_lt_two_pow (lt_of_lt_of_le (by omega : brp < 2 ^ 6)
        (Nat.pow_le_pow_right (by decide) (not_lt.mp hi)))
    simp [Nat.testBit_and, h63, hi, hz]

/-- Claim C12, as stated, fails: for 12 MHz at 250 kbit/s (48 quanta per bit)
the word returned carries prescaler 3, while prescaler 2 = 48 / 24 with 13
segments already gives (13 + 3) * (2 + 1) = 48. -/
theorem can_speed_skips_first_prescaler :
    can_speed 100 12000000 250000 1 = some 0x2743 ∧ (0x2743 : Nat) ≠ 0 ∧
    0x2743 &&& 0x3F = 3 ∧ 12000000 / 250000 = 48 ∧
    12000000 / 250000 / 24 ≤ 2 ∧ 2 < 3 ∧ 1 ≤ 13 ∧ 13 ≤ 22 ∧
    (13 + 3) * (2 + 1) = 12000000 / 250000 := by
  decide

/-- Claim C12, amended: whenever `can_speed` returns a word and `p` is the
smallest prescaler above `bitwidth / 24` for which some segment count `s` in
1..22 satisfies `(s + 3) * (p + 1) = bitwidth`, with `p` within the 6-bit
field (`p ≤ 63`), the prescaler encoded in the word is `p`. -/
theorem can_speed_prescaler (fuel sclk cclk psjw w p : Nat) (_hc : 0 < cclk)
    (hw : can_speed fuel sclk cclk psjw = some w)
    (hp : sclk / cclk / 24 < p)
    (hs : ∃ s, 1 ≤ s ∧ s ≤ 22 ∧ (s + 3) * (p + 1) = sclk / cclk)
    (hmin : ∀ q, sclk / cclk / 24 < q → q < p →
      ¬ ∃ s, 1 ≤ s ∧ s ≤ 22 ∧ (s + 3) * (q + 1) = sclk / cclk)
    (h63 : p ≤ 63) :
    w ≠ 0 ∧ w &&& 0x3F = p := by
  obtain ⟨s, s1, s2, s3⟩ := hs
  have hbig : sclk / cclk ≤ 25 * 64 := by
    rw [← s3]; exact Nat.mul_le_mul (by omega) (by omega)
  have h4 : 4 * (p + 1) ≤ sclk / cclk := by
    rw [← s3]; exact Nat.mul_le_mul_right _ (by omega)
  have hbw : sclk / cclk / 4 < 65536 := by omega
  have hm : (sclk / cclk / 0x18) % 65536 = sclk / cclk / 24 := Nat.mod_eq_of_lt (by omega)
  obtain ⟨r, hr, hspec⟩ := speed_search_spec (sclk / cclk) hbw (sclk / cclk / 4 + 1)
    (sclk / cclk / 24) (by omega)
  have hr' := speed_search_mono _ _ _ _ hr (max fuel (sclk / cclk / 4 + 1)) (le_max_right _ _)
  unfold can_speed at hw
  simp only [hm] at hw
  cases hf : speed_search (sclk / cclk) fuel (sclk / cclk / 24) with
  | none => simp only [hf] at hw; cases hw
  | some r2 =>
    have hr2 := speed_search_mono _ _ _ _ hf (max fuel (sclk / cclk / 4 + 1)) (le_max_left _ _)
    have e : r2 = r := Option.some.inj (hr2.symm.trans hr')
    subst e
    simp only [hf] at hw
    cases r2 with
    | none => exact absurd s3 (hspec p s hp (by omega) s1 s2)
    | some pb =>
      obtain ⟨p', b'⟩ := pb
      obtain ⟨g1, g2, g3, g4, g5, g6⟩ := hspec
      have hpp : p' = p := by
        rcases Nat.lt_trichotomy p' p with hlt | heq | hgt
        · exact absurd ⟨b', g3, g4, g5⟩ (hmin p' g1 hlt)
        · exact heq
        · exact absurd s3 (g6 p s hp hgt s1 s2)
      subst hpp
      have hwe := Option.some.inj hw
      rw [← hwe]
      exact ⟨btr_ne_zero b' psjw p' g3 g4, btr_prescaler _ _ _ p' _ h63⟩

/-- Witness of `can_speed_prescaler`: 12 MHz at 100 kbit/s, prescaler 7. -/
theorem can_speed_prescaler_witness :
    0 < 100000 ∧ can_speed 10 12000000 100000 1 = some 0x3947 ∧
    12000000 / 100000 / 24 < 7 ∧
    (∃ s, 1 ≤ s ∧ s ≤ 22 ∧ (s + 3) * (7 + 1) = 12000000 / 100000) ∧
    (∀ q, 12000000 / 100000 / 24 < q → q < 7 →
      ¬ ∃ s, 1 ≤ s ∧ s ≤ 22 ∧ (s + 3) * (q + 1) = 12000000 / 100000) ∧
    7 ≤ 63 ∧ (0x3947 : Nat) ≠ 0 ∧ 0x3947 &&& 0x3F = 7 :=
  have hmin : ∀ q, 12000000 / 100000 / 24 < q → q < 7 →
      ¬ ∃ s, 1 ≤ s ∧ s ≤ 22 ∧ (s + 3) * (q + 1) = 12000000 / 100000 := by
    intro q h1 h2
    have hq : q = 6 := by omega
    subst hq
    rintro ⟨s, _, _, h⟩
    omega
  ⟨by decide, by decide, by decide, ⟨12, by decide⟩, hmin, by decide,
    can_speed_prescaler 10 12000000 100000 1 0x3947 7 (by decide) (by decide) (by decide)
      ⟨12, by decide⟩ hmin (by decide)⟩

/-- Claim C13: at 12 MHz and 100 kbit/s `can_speed` returns, for every
`psjw`, a non-zero word whose fields (TSEG2 bits 12..14, TSEG1 bits 8..11,
prescaler bits 0..5) give (TSEG1 + TSEG2 + 3) * (prescaler + 1) = 120, the
number of quanta 12000000 / 100000; with `psjw = 1` the word is 0x3947:
prescaler 7, TSEG1 9, TSEG2 3.  Two iterations of the search suffice. -/
theorem can_speed_default_rate :
    (∀ psjw, ∃ w, (∀ fuel, can_speed (fuel + 2) 12000000 100000 psjw = some w) ∧ w ≠ 0 ∧
      (((w >>> 8) &&& 0xF) + ((w >>> 12) &&& 0x7) + 3) * ((w &&& 0x3F) + 1) = 120) ∧
    (∀ fuel, can_speed (fuel + 2) 12000000 100000 1 = some 0x3947) ∧
    0x3947 &&& 0x3F = 7 ∧ (0x3947 >>> 8) &&& 0xF = 9 ∧ (0x3947 >>> 12) &&& 0x7 = 3 ∧
    12000000 / 100000 = 120 := by
  have hsearch : ∀ fuel, speed_search 120 (fuel + 2) 5 = some (some (7, 12)) := fun fuel =>
    speed_search_mono 120 2 5 _ (by decide) (fuel + 2) (by omega)
  have hform : ∀ psjw fuel, can_speed (fuel + 2) 12000000 100000 psjw =
      some (((((timing_pts.getD 12 (0, 0)).2 &&& 0x7) <<< 12)
        ||| (((timing_pts.getD 12 (0, 0)).1 &&& 0xf) <<< 8)
        ||| ((psjw &&& 0x3) <<< 6)
        ||| (7 &&& 0x3F)) ||| ((1 - 1) <<< 16)) := by
    intro psjw fuel
    unfold can_speed
    have e1 : 12000000 / 100000 = 120 := by decide
    have e2 : (120 / 0x18) % 65536 = 5 := by decide
    simp only [e1, e2, hsearch fuel]
  refine ⟨fun psjw => ⟨_, hform psjw, ?_, ?_⟩, fun fuel => ?_, by decide, by decide, by decide,
    by decide⟩
  · exact btr_ne_zero 12 psjw 7 (by decide) (by decide)
  · have hq : psjw &&& 0x3 = psjw % 4 := Nat.and_pow_two_sub_one_eq_mod psjw 2
    rw [hq]
    have h4 : psjw % 4 = 0 ∨ psjw % 4 = 1 ∨ psjw % 4 = 2 ∨ psjw % 4 = 3 := by omega
    rcases h4 with h | h | h | h <;> rw [h] <;> decide
  · rw [hform 1 fuel]; decide

/-- Claim C19 fails on the code: at 72 MHz and 1 bit/s (72000000 quanta per
bit, `bitwidth / 4` above every 16-bit prescaler and `bitwidth` above every
product (bits + 3) * (brp + 1)) the search of `can_speed` is still running
after any number of iterations, whatever `psjw`. -/
theorem can_speed_search_never_ends :
    72000000 / 1 = 72000000 ∧ 65535 < 72000000 / 1 / 4 ∧ 25 * 65536 < 72000000 / 1 ∧
    (∀ fuel psjw, can_speed fuel 72000000 1 psjw = none) := by
  refine ⟨by decide, by decide, by decide, fun fuel psjw => ?_⟩
  unfold can_speed
  have h := speed_search_diverges (72000000 / 1) (by decide) fuel
    ((72000000 / 1 / 0x18) % 65536) (Nat.mod_lt _ (by decide))
  simp only [h]

/-! ## The timing table -/

/-- Claim C16, as stated, fails at entry 16: `timing_pts[16]` is (13, 3), with
the sample point 3/76 away from 75% when measured from the start of the bit,
while the admissible pair (12, 4) is 1/76 away. -/
theorem timing_pts_entry16_not_closest :
    timing_pts.getD 16 (0, 0) = (13, 3) ∧ 12 + 4 = 16 ∧ 12 ≤ 15 ∧ 4 ≤ 7 ∧
    spec_sample_dist 12 16 < spec_sample_dist (timing_pts.getD 16 (0, 0)).1 16 := by
  refine ⟨rfl, rfl, by decide, by decide, ?_⟩
  show spec_sample_dist 12 16 < spec_sample_dist 13 16
  unfold spec_sample_dist
  rw [← sq_lt_sq]
  norm_num

/-- Claim C16, amended: for every index `n` in 0..22 the entry
(TSEG1, TSEG2) = `timing_pts[n]` has TSEG1 + TSEG2 = n and is admissible, and
among all `(a, b)` with `a + b = n`, `a ≤ 15`, `b ≤ 7` it minimises the
distance of the sample point from 75% measured as the comments of the table
measure it, |(a + 1)/(n + 2) - 3/4|; measured from the start of the bit,
|(a + 2)/(n + 3) - 3/4|, it does so for every `n` other than 16. -/
theorem timing_pts_closest (n a b : Nat) (hn : n ≤ 22) (hab : a + b = n) (ha : a ≤ 15)
    (hb : b ≤ 7) :
    (timing_pts.getD n (0, 0)).1 + (timing_pts.getD n (0, 0)).2 = n ∧
    (timing_pts.getD n (0, 0)).1 ≤ 15 ∧ (timing_pts.getD n (0, 0)).2 ≤ 7 ∧
    table_sample_dist (timing_pts.getD n (0, 0)).1 n ≤ table_sample_dist a n ∧
    (n ≠ 16 → spec_sample_dist (timing_pts.getD n (0, 0)).1 n ≤ spec_sample_dist a n) := by
  have han : a ≤ n := by omega
  have hbn : n - a ≤ 7 := by omega
  clear hab hb
  refine ⟨?_, ?_, ?_, ?_, ?_⟩
  · interval_cases n <;> rfl
  · interval_cases n <;> decide
  · interval_cases n <;> decide
  · unfold table_sample_dist
    rw [← sq_le_sq]
    interval_cases n <;> interval_cases a <;>
      first
      | omega
      | (simp only [timing_pts, List.getD_cons_zero, List.getD_cons_succ]; norm_num)
  · intro h16
    unfold spec_sample_dist
    rw [← sq_le_sq]
    interval_cases n <;> interval_cases a <;>
      first
      | omega
      | exact absurd rfl h16
      | (simp only [timing_pts, List.getD_cons_zero, List.getD_cons_succ]; norm_num)

/-- Witness of `timing_pts_closest`: entry 12, (9, 3), against the pair
(10, 2). -/
theorem timing_pts_closest_witness :
    12 ≤ 22 ∧ 10 + 2 = 12 ∧ 10 ≤ 15 ∧ 2 ≤ 7 ∧
    (timing_pts.getD 12 (0, 0)).1 + (timing_pts.getD 12 (0, 0)).2 = 12 ∧
    (timing_pts.getD 12 (0, 0)).1 ≤ 15 ∧ (timing_pts.getD 12 (0, 0)).2 ≤ 7 ∧
    table_sample_dist (timing_pts.getD 12 (0, 0)).1 12 ≤ table_sample_dist 10 12 ∧
    (12 ≠ 16 → spec_sample_dist (timing_pts.getD 12 (0, 0)).1 12 ≤ spec_sample_dist 10 12) :=
  ⟨by decide, by decide, by decide, by decide,
    timing_pts_closest 12 10 2 (by decide) (by decide) (by decide) (by decide)⟩

/-! ## Arbitration words and payload -/

/-- Claim C14 fails on the code: for the 29-bit identifier 0x12345678,
`can_write` (into slot 32) and `can_filter` (into slot 5) both pack
`ARB1 = 0x5678` and the identifier part `0x1234` of `ARB2`, and `can_read`
decodes from these words the identifier 0x16781234: it takes the low 13 bits
of `ARB1` as the upper half and `ARB2` as the lower half. -/
theorem can_read_extended_id_swapped :
    frame_ext_data.format = CANFormat.CANExtended ∧ frame_ext_data.id = 0x12345678 ∧
    frame_ext_data.id ≤ 0x1FFFFFFF ∧
    (can_write State.zero frame_ext_data 0).1.CANIF1_ARB1 = 0x12345678 &&& 0xFFFF ∧
    (can_write State.zero frame_ext_data 0).1.CANIF1_ARB2
      = CANIFn_ARB2_MSGVAL ||| CANIFn_ARB2_XTD ||| CANIFn_ARB2_DIR
        ||| ((0x12345678 >>> 16) &&& 0x1FFF) ∧
    (can_read (can_write State.zero frame_ext_data 0).1 frame_std_data 32).2.1.format
      = CANFormat.CANExtended ∧
    (can_read (can_write State.zero frame_ext_data 0).1 frame_std_data 32).2.1.id
      = 0x16781234 ∧
    (can_filter State.zero 0x12345678 0x1FFFFFFF CANFormat.CANExtended 5).1.CANIF1_ARB1
      = 0x12345678 &&& 0xFFFF ∧
    (can_filter State.zero 0x12345678 0x1FFFFFFF CANFormat.CANExtended 5).1.CANIF1_ARB2
      = CANIFn_ARB2_MSGVAL ||| CANIFn_ARB2_XTD ||| ((0x12345678 >>> 16) &&& 0x1FFF) ∧
    (can_read (can_filter State.zero 0x12345678 0x1FFFFFFF CANFormat.CANExtended 5).1
      frame_std_data 5).2.1.id = 0x16781234 := by
  decide

/-- Claim C15 fails on the code: for the extended remote frame with identifier
0x20000000 `can_write` stages `ARB2 = 0xE000`, direction bit 13 set although
the frame is not a data frame, where `can_filter` stages `ARB2 = 0xC000` for
the same identifier and format: `can_write` masks `id >> 16` with 0x1FFFF, so
identifier bits 29..31 reach the direction, extended and valid bits. -/
theorem can_write_wide_id_sets_direction :
    frame_ext_wide.format = CANFormat.CANExtended ∧ frame_ext_wide.type = CANType.CANRemote ∧
    frame_ext_wide.id = 0x20000000 ∧
    (can_write State.zero frame_ext_wide 0).2 = 1 ∧
    (can_write State.zero frame_ext_wide 0).1.CANIF1_ARB2 = 0xE000 ∧
    (can_write State.zero frame_ext_wide 0).1.CANIF1_ARB2.testBit 13 = true ∧
    (can_filter State.zero 0x20000000 0 CANFormat.CANExtended 32).1.CANIF1_ARB2 = 0xC000 ∧
    (can_write State.zero { frame_ext_wide with id := 0 } 0).1.CANIF1_ARB2 = 0xC000 := by
  decide

/-- A packed data register holds the even byte in its low half and the odd
byte in its high half. -/
theorem pack_pair (a b : Nat) (ha : a < 256) (hb : b < 256) :
    ((b &&& 0xFF) <<< 8) ||| (a &&& 0xFF) = a + 256 * b := by
  have e : ((b &&& 0xFF) <<< 8) ||| (a &&& 0xFF) = 2 ^ 8 * (b % 256) + a % 256 := by
    rw [and_mask8, and_mask8, Nat.shiftLeft_eq, Nat.mul_comm]
    exact or_eq_add (b % 256) (a % 256) 8 (by omega)
  rw [e]; omega

/-- The eight bytes `can_read` unpacks from the four data words `can_write`
packs. -/
theorem unpack_bytes (d : Fin 8 → Nat) (hd : ∀ i, d i < 256) :
    ![(((d 1 &&& 0xFF) <<< 8 ||| (d 0 &&& 0xFF)) >>> 0) &&& 0xFF,
      (((d 1 &&& 0xFF) <<< 8 ||| (d 0 &&& 0xFF)) >>> 8) &&& 0xFF,
      (((d 3 &&& 0xFF) <<< 8 ||| (d 2 &&& 0xFF)) >>> 0) &&& 0xFF,
      (((d 3 &&& 0xFF) <<< 8 ||| (d 2 &&& 0xFF)) >>> 8) &&& 0xFF,
      (((d 5 &&& 0xFF) <<< 8 ||| (d 4 &&& 0xFF)) >>> 0) &&& 0xFF,
      (((d 5 &&& 0xFF) <<< 8 ||| (d 4 &&& 0xFF)) >>> 8) &&& 0xFF,
      (((d 7 &&& 0xFF) <<< 8 ||| (d 6 &&& 0xFF)) >>> 0) &&& 0xFF,
      (((d 7 &&& 0xFF) <<< 8 ||| (d 6 &&& 0xFF)) >>> 8) &&& 0xFF] = d := by
  funext i
  fin_cases i
  · exact pack_lo (d 0) (d 1) (hd 0)
  · exact pack_hi (d 0) (d 1) (hd 1)
  · exact pack_lo (d 2) (d 3) (hd 2)
  · exact pack_hi (d 2) (d 3) (hd 3)
  · exact pack_lo (d 4) (d 5) (hd 4)
  · exact pack_hi (d 4) (d 5) (hd 5)
  · exact pack_lo (d 6) (d 7) (hd 6)
  · exact pack_hi (d 6) (d 7) (hd 7)

/-- Claim C20: for every standard-format frame with identifier at most 0x7FF,
length at most 8 and eight payload bytes, `can_write` with slot 32 not pending
followed by `can_read` of handle 32 returns 1 twice and reproduces the
identifier, the standard format, the length and the eight payload bytes in
their order; the four data words of the slot hold the bytes as little-endian
pairs. -/
theorem can_write_read_standard_frame (s : State) (msg m0 : CAN_Message) (cc : Int)
    (hfmt : msg.format = CANFormat.CANStandard) (hid : msg.id ≤ 0x7FF) (hlen : msg.len ≤ 8)
    (hdata : ∀ i, msg.data i < 256) (hp : s.CANTXREQ2.testBit 15 = false) :
    (can_write s msg cc).2 = 1 ∧
    (can_read (can_write s msg cc).1 m0 32).2.2 = 1 ∧
    (can_read (can_write s msg cc).1 m0 32).2.1.id = msg.id ∧
    (can_read (can_write s msg cc).1 m0 32).2.1.format = CANFormat.CANStandard ∧
    (can_read (can_write s msg cc).1 m0 32).2.1.len = msg.len ∧
    (can_read (can_write s msg cc).1 m0 32).2.1.data = msg.data ∧
    ((can_write s msg cc).1.ram 32).da1 = msg.data 0 + 256 * msg.data 1 ∧
    ((can_write s msg cc).1.ram 32).da2 = msg.data 2 + 256 * msg.data 3 ∧
    ((can_write s msg cc).1.ram 32).db1 = msg.data 4 + 256 * msg.data 5 ∧
    ((can_write s msg cc).1.ram 32).db2 = msg.data 6 + 256 * msg.data 7 := by
  have hf : msg.format ≠ CANFormat.CANExtended := by rw [hfmt]; decide
  obtain ⟨hw, hslot⟩ := can_write_std_slot s msg cc hp hf
  obtain ⟨hr, _, hfr⟩ := can_read_slot (can_write s msg cc).1 m0 32 (by decide) (by decide)
  simp only [Nat.cast_ofNat] at hr hfr
  have hd : (if msg.type = CANType.CANData then CANIFn_ARB2_DIR else 0) = 0x2000 ∨
      (if msg.type = CANType.CANData then CANIFn_ARB2_DIR else 0) = 0 := by
    by_cases h : msg.type = CANType.CANData <;> simp [h]
  obtain ⟨a1, a2, _⟩ := std_arb2 msg.id _ hid hd
  refine ⟨hw, hr, ?_, ?_, ?_, ?_, ?_, ?_, ?_, ?_⟩
  · rw [hfr, hslot]; simp only [CANIFn_ARB2_XTD, CANIFn_ARB2_MSGVAL]
    rw [a1]; simpa using a2
  · rw [hfr, hslot]; simp only [CANIFn_ARB2_XTD, CANIFn_ARB2_MSGVAL]
    rw [a1]; simp
  · rw [hfr, hslot]; exact mctrl_len msg.len hlen
  · rw [hfr, hslot]; exact unpack_bytes msg.data hdata
  · rw [hslot]; exact pack_pair _ _ (hdata 0) (hdata 1)
  · rw [hslot]; exact pack_pair _ _ (hdata 2) (hdata 3)
  · rw [hslot]; exact pack_pair _ _ (hdata 4) (hdata 5)
  · rw [hslot]; exact pack_pair _ _ (hdata 6) (hdata 7)

/-- Witness of `can_write_read_standard_frame`: the remote frame
`frame_std_remote` written from the state with INIT set. -/
theorem can_write_read_standard_frame_witness :
    frame_std_remote.format = CANFormat.CANStandard ∧ frame_std_remote.id ≤ 0x7FF ∧
    frame_std_remote.len ≤ 8 ∧ (∀ i, frame_std_remote.data i < 256) ∧
    state_init.CANTXREQ2.testBit 15 = false ∧
    (can_write state_init frame_std_remote 0).2 = 1 ∧
    (can_read (can_write state_init frame_std_remote 0).1 frame_ext_data 32).2.2 = 1 ∧
    (can_read (can_write state_init frame_std_remote 0).1 frame_ext_data 32).2.1.id
      = frame_std_remote.id ∧
    (can_read (can_write state_init frame_std_remote 0).1 frame_ext_data 32).2.1.format
      = CANFormat.CANStandard ∧
    (can_read (can_write state_init frame_std_remote 0).1 frame_ext_data 32).2.1.len
      = frame_std_remote.len ∧
    (can_read (can_write state_init frame_std_remote 0).1 frame_ext_data 32).2.1.data
      = frame_std_remote.data ∧
    ((can_write state_init frame_std_remote 0).1.ram 32).da1
      = frame_std_remote.data 0 + 256 * frame_std_remote.data 1 ∧
    ((can_write state_init frame_std_remote 0).1.ram 32).da2
      = frame_std_remote.data 2 + 256 * frame_std_remote.data 3 ∧
    ((can_write state_init frame_std_remote 0).1.ram 32).db1
      = frame_std_remote.data 4 + 256 * frame_std_remote.data 5 ∧
    ((can_write state_init frame_std_remote 0).1.ram 32).db2
      = frame_std_remote.data 6 + 256 * frame_std_remote.data 7 :=
  ⟨rfl, by decide, by decide, by decide, by decide,
    can_write_read_standard_frame state_init frame_std_remote frame_ext_data 0 rfl (by decide)
      (by decide) (by decide) (by decide)⟩

/-! ## Filter packing; send and status -/

/-- The standard-format arbitration word of `can_filter` has no extended
bit. -/
theorem std_filter_arb2_no_xtd (x : Nat) :
    (CANIFn_ARB2_MSGVAL ||| (x &&& 0x1FFF)) &&& CANIFn_ARB2_XTD = 0 := by
  have k1 : Nat.testBit 0x8000 14 = false := by decide
  have k2 : Nat.testBit 0x1FFF 14 = false := by decide
  have h : (0x8000 ||| (x &&& 0x1FFF)).testBit 14 = false := by
    rw [Nat.testBit_or, Nat.testBit_and, k1, k2]; simp
  have e := and_pow_ne_zero (0x8000 ||| (x &&& 0x1FFF)) 14
  rw [h] at e
  have e2 : ¬ ((0x8000 ||| (x &&& 0x1FFF)) &&& 2 ^ 14 ≠ 0) := fun hne => by
    have := e.mp hne
    cases this
  exact not_not.mp e2

/-- Claim C21: for every identifier, mask and handle in 1..32, `can_filter`
returns the handle and leaves staged on interface 1: in extended format
`ARB1 = id & 0xFFFF`, `ARB2 = valid | extended | ((id >> 16) & 0x1FFF)`,
`MSK1 = mask & 0xFFFF`, `MSK2 = mask-extended | ((mask >> 16) & 0x1FFF)`; in
any other format `ARB2 = valid | ((id << 2) & 0x1FFF)` without the extended
bit and `MSK2 = (mask << 2) & 0x1FFF`, with `ARB1` and `MSK1` as they were;
in both the control word 0x1088 (use-mask | end-of-block | 8), the command
mask 0xF0 (write | mask | arbitration | control) and the handle as command
request. -/
theorem can_filter_packing (s : State) (id mask : Nat) (format : CANFormat) (handle : Int)
    (h1 : 1 ≤ handle) (h2 : handle ≤ 32) :
    (can_filter s id mask format handle).2 = handle ∧
    (format = CANFormat.CANExtended →
      (can_filter s id mask format handle).1.CANIF1_ARB1 = id &&& 0xFFFF ∧
      (can_filter s id mask format handle).1.CANIF1_ARB2
        = CANIFn_ARB2_MSGVAL ||| CANIFn_ARB2_XTD ||| ((id >>> 16) &&& 0x1FFF) ∧
      (can_filter s id mask format handle).1.CANIF1_MSK1 = mask &&& 0xFFFF ∧
      (can_filter s id mask format handle).1.CANIF1_MSK2
        = CANIFn_MSK2_MXTD ||| ((mask >>> 16) &&& 0x1FFF)) ∧
    (format ≠ CANFormat.CANExtended →
      (can_filter s id mask format handle).1.CANIF1_ARB2
        = CANIFn_ARB2_MSGVAL ||| ((id <<< 2) &&& 0x1FFF) ∧
      (can_filter s id mask format handle).1.CANIF1_ARB2 &&& CANIFn_ARB2_XTD = 0 ∧
      (can_filter s id mask format handle).1.CANIF1_MSK2 = (mask <<< 2) &&& 0x1FFF ∧
      (can_filter s id mask format handle).1.CANIF1_ARB1 = s.CANIF1_ARB1 ∧
      (can_filter s id mask format handle).1.CANIF1_MSK1 = s.CANIF1_MSK1) ∧
    (can_filter s id mask format handle).1.CANIF1_MCTRL = 0x1088 ∧
    (can_filter s id mask format handle).1.CANIF1_MCTRL
      = CANIFn_MCTRL_UMASK ||| CANIFn_MCTRL_EOB ||| 8 ∧
    (can_filter s id mask format handle).1.CANIF1_CMDMSK_W = 0xF0 ∧
    (can_filter s id mask format handle).1.CANIF1_CMDMSK_W
      = CANIFn_CMDMSK_WR ||| CANIFn_CMDMSK_MASK ||| CANIFn_CMDMSK_ARB ||| CANIFn_CMDMSK_CTRL ∧
    ((can_filter s id mask format handle).1.CANIF1_CMDREQ : Int) = handle := by
  obtain ⟨n, rfl⟩ := Int.eq_ofNat_of_zero_le (by omega : (0 : Int) ≤ handle)
  have hn1 : 1 ≤ n := by omega
  have hn2 : n ≤ 32 := by omega
  have hc : (0 : Int) < (n : Int) ∧ (n : Int) ≤ 32 := by omega
  have hn0 : ¬ ((n : Int) = 0) := by omega
  have hx := std_filter_arb2_no_xtd (id <<< 2)
  by_cases hf : format = CANFormat.CANExtended
  · unfold can_filter
    simp only [if_neg hn0, if_pos hc, Int.toNat_ofNat, and_msgnum n hn2, if_pos hf]
    simp +decide [if1_transfer, if1_wait, hf, and_not_busy n hn2, CANIFn_CMDMSK_WR,
      CANIFn_CMDMSK_MASK, CANIFn_CMDMSK_ARB, CANIFn_CMDMSK_CTRL, CANIFn_CMDMSK_DATA_A,
      CANIFn_CMDMSK_DATA_B, CANIFn_MCTRL_UMASK, CANIFn_MCTRL_EOB, DLC_MAX]
  · unfold can_filter
    simp only [if_neg hn0, if_pos hc, Int.toNat_ofNat, and_msgnum n hn2, if_neg hf]
    simp +decide [if1_transfer, if1_wait, hf, and_not_busy n hn2, CANIFn_CMDMSK_WR,
      CANIFn_CMDMSK_MASK, CANIFn_CMDMSK_ARB, CANIFn_CMDMSK_CTRL, CANIFn_CMDMSK_DATA_A,
      CANIFn_CMDMSK_DATA_B, CANIFn_MCTRL_UMASK, CANIFn_MCTRL_EOB, DLC_MAX]
    simpa using hx

/-- Witness of `can_filter_packing`: a standard filter put into slot 5 from
the zero state. -/
theorem can_filter_packing_witness :
    (1 : Int) ≤ 5 ∧ (5 : Int) ≤ 32 ∧
    (can_filter State.zero 0x123 0x7FF CANFormat.CANStandard 5).2 = 5 ∧
    (can_filter State.zero 0x123 0x7FF CANFormat.CANStandard 5).1.CANIF1_MCTRL = 0x1088 ∧
    (can_filter State.zero 0x123 0x7FF CANFormat.CANStandard 5).1.CANIF1_CMDMSK_W = 0xF0 ∧
    ((can_filter State.zero 0x123 0x7FF CANFormat.CANStandard 5).1.CANIF1_CMDREQ : Int) = 5 :=
  ⟨by decide, by decide,
    (can_filter_packing State.zero 0x123 0x7FF CANFormat.CANStandard 5 (by decide)
      (by decide)).1,
    (can_filter_packing State.zero 0x123 0x7FF CANFormat.CANStandard 5 (by decide)
      (by decide)).2.2.2.1,
    (can_filter_packing State.zero 0x123 0x7FF CANFormat.CANStandard 5 (by decide)
      (by decide)).2.2.2.2.2.1,
    (can_filter_packing State.zero 0x123 0x7FF CANFormat.CANStandard 5 (by decide)
      (by decide)).2.2.2.2.2.2.2⟩

/-- The result of `can_write` is decided by bit 15 of `CANTXREQ2`. -/
theorem can_write_ret (s : State) (msg : CAN_Message) (cc : Int) :
    (can_write s msg cc).2 = if s.CANTXREQ2.testBit 15 then 0 else 1 := by
  unfold can_write
  simp only [tx_scan, can_enable_eq, txPending_bit31]
  cases hb : s.CANTXREQ2.testBit 15
  · simp
  · simp

/-- The result of `can_tx_status` is decided by bit 15 of `CANTXREQ2`. -/
theorem can_tx_status_bit (s : State) :
    can_tx_status s =
      if s.CANTXREQ2.testBit 15 then CanTxState.TX_STATE_BUSY
      else CanTxState.TX_STATE_IDLE := by
  unfold can_tx_status
  simp only [tx_count, txPending_bit31]
  cases hb : s.CANTXREQ2.testBit 15
  · simp
  · have hne : ((s.CANTXREQ1 &&& 0xFF) ||| (s.CANTXREQ2 <<< 16)) % 2 ^ 32 ≠ 0 := by
      intro h0
      have h := txPending_bit31 s.CANTXREQ1 s.CANTXREQ2
      rw [h0, hb] at h
      simp at h
    simp only [hne, ne_eq, not_false_eq_true, if_true]
    simp

/-- Claim C22: for every register state and every frame, `can_write` returns
1 if and only if `can_tx_status` on the same state does not return BUSY, and,
equally, if and only if it returns IDLE; otherwise `can_write` returns 0. -/
theorem can_write_iff_tx_status (s : State) (msg : CAN_Message) (cc : Int) :
    ((can_write s msg cc).2 = 1 ↔ can_tx_status s ≠ CanTxState.TX_STATE_BUSY) ∧
    ((can_write s msg cc).2 = 1 ↔ can_tx_status s = CanTxState.TX_STATE_IDLE) ∧
    ((can_write s msg cc).2 = 0 ↔ can_tx_status s = CanTxState.TX_STATE_BUSY) := by
  rw [can_write_ret, can_tx_status_bit]
  cases s.CANTXREQ2.testBit 15 <;> simp

end CanApi
